import Mathlib

/-!
Verification of the query-construction engine in `lib/modules/models/table.js`
of the `fire` repository (a PostgreSQL-backed object mapper).

The statement builders of `Table` are shallowly embedded as executable Lean
functions.  JavaScript objects used as semantic maps (`whereMap`, `setMap`,
`sort`, `group`, `select`) become association lists; knex query-builder objects
become a record of their accumulated clauses; `throw` becomes `Except.error`.
Thrown `new Error(message)` values and JavaScript runtime `TypeError`s are kept
distinct, since both occur in the source.

`Model` and `Property` (files `model.js` / `property.js`) are collaborators of
`table.js` that are not part of the given sources; the record types and lookup
functions that stand in for them are modelled from the specification and are
marked as such in their doc comments.  Everything else is translated directly
from `table.js`.
-/

namespace Fire

/-- JavaScript values that flow through the semantic maps (`whereMap`,
`setMap`).  `vQueryValue s` models an object exposing a `toQueryValue()`
conversion whose converted result is the string `s`; `vBuilder` models a knex
query-builder instance (columns, from-table, a raw WHERE fragment and its
bindings), which is how `createSearchStatement` embeds its subquery. -/
inductive Value where
  | vNull : Value
  | vInt (n : Int) : Value
  | vStr (s : String) : Value
  | vBool (b : Bool) : Value
  | vDate (ms : Int) : Value
  | vQueryValue (s : String) : Value
  | vBuilder (columns : List String) (fromTable : String) (rawSql : String)
      (bindings : List String) : Value
  | vArr (elems : List Value) : Value
  | vObj (fields : List (String × Value)) : Value

/-- JavaScript truthiness of a `Value` (objects and arrays are always truthy,
`null`, `0`, `""` and `false` are falsy). -/
def Value.truthy : Value → Bool
  | .vNull => false
  | .vInt n => n ≠ 0
  | .vStr s => s ≠ ""
  | .vBool b => b
  | .vDate _ => true
  | .vQueryValue _ => true
  | .vBuilder _ _ _ _ => true
  | .vArr _ => true
  | .vObj _ => true

/-- An error raised during statement construction: `err` is a thrown
`new Error(message)`, `typeErr` is a JavaScript runtime `TypeError` (for
example reading a property of `undefined`). -/
inductive JsErr where
  | err (msg : String) : JsErr
  | typeErr (msg : String) : JsErr
deriving DecidableEq, Repr

/-- Kind of a SQL join emitted by knex: `innerJoin` or `leftOuterJoin`. -/
inductive JoinType where
  | inner : JoinType
  | leftOuter : JoinType
deriving DecidableEq, Repr

/-- One join clause accumulated on a knex query: the joined table expression
(possibly `"table as some_alias"`), the two sides of the ON condition, and the
join kind. -/
structure Join where
  tableExpr : String
  onLeft : String
  onRight : String
  kind : JoinType
deriving DecidableEq, Repr

/-- A WHERE condition accumulated on a knex query, mirroring the calls the
source makes: `whereNull`, `whereRaw`, `where(col, v)`, `where(col, op, v)`,
`whereIn`, `whereNotIn`, the per-column `$or` disjunction of equalities, a
correlated `whereExists` subquery (its from-table and its own conditions), and
the map-level `$or` group (disjunction of conjunctions). -/
inductive Wc where
  | wNull (col : String) : Wc
  | wRaw (sql : String) (bindings : List Value) : Wc
  | wEq (col : String) (v : Value) : Wc
  | wOp (col : String) (op : String) (v : Value) : Wc
  | wIn (col : String) (v : Value) : Wc
  | wNotIn (col : String) (vs : List Value) : Wc
  | wOrVals (col : String) (vs : List Value) : Wc
  | wExists (fromTable : String) (conds : List Wc) : Wc
  | wOrGroups (branches : List (List Wc)) : Wc

/-- The state of a knex query builder: all clause lists the statement builders
of `table.js` append to. -/
structure Query where
  fromTable : String := ""
  columns : List String := []
  joins : List Join := []
  wheres : List Wc := []
  orderBys : List (String × String) := []
  groupBys : List String := []
  limit : Option Nat := none
  offset : Option Nat := none
  returning : List String := []
  updateMap : List (String × Value) := []
  increments : List (String × Value) := []
  decrements : List (String × Value) := []
  isDelete : Bool := false

/-- A finished statement: either a single plain query or a common table
expression `WITH "bindName" AS (withQ) main`. -/
inductive Statement where
  | plain (q : Query) : Statement
  | cte (bindName : String) (withQ : Query) (main : Query) : Statement

/-- Modelled from the spec: a `Property` of a `Model` (file `property.js` is
not among the given sources; `table.js` is its caller).  Field names follow
the accesses `table.js` makes: `allowed` is `isAllowed()` (the property is
backed by a storage column), `clauses` the DDL type keyword list, `counting` /
`sqlish` / `rawWhere` the computed-property options, `association` marks the
Property subtype carrying a relation, with its kind given by `belongsTo`,
`hasOne` / `hasMany` (holding the name of the foreign-key property on the
associated model) or `through` (the through-model name of a many-to-many).
Object references (`model`, `getAssociatedModel()`, `options.through`,
`options.relationshipVia`) are model names resolved through a registry. -/
structure Prp where
  name : String
  columnName : String
  columnNameIndicator : String := "."
  clauses : List String := []
  allowed : Bool := true
  isHidden : Bool := false
  isAggregate : Bool := false
  isVirtual : Bool := false
  counting : Option String := none
  sqlish : Option String := none
  rawWhere : Option String := none
  association : Bool := false
  autoFetch : Bool := false
  autoFetchProperties : Option (List String) := none
  required : Bool := false
  hasOne : Option String := none
  hasMany : Option String := none
  belongsTo : Bool := false
  through : Option String := none
  throughPropertyName : Option String := none
  relationshipVia : Option (String × String) := none
  modelName : String := ""
  associatedModelName : Option String := none
  referenceName : Option String := none
deriving DecidableEq, Repr

/-- Modelled from the spec: a `Model` (file `model.js` is not among the given
sources) — a named, ordered collection of properties.  `tableName` is the
pluralized/tableized SQL identifier that `Table` computes from the model name
with the external `inflection` library; it is carried as data. -/
structure Mdl where
  name : String
  tableName : String
  properties : List Prp
deriving DecidableEq, Repr

/-- The model registry: all models known to the app, fully linked. -/
abbrev Env := List Mdl

/-- Truthiness of an optional string (JavaScript: `undefined` and `""` are
falsy). -/
def strTruthy : Option String → Bool
  | none => false
  | some s => s ≠ ""

/-- `quote` from `table.js`: wrap an identifier in double quotes. -/
def quote (s : String) : String := "\"" ++ s ++ "\""

/-- Look a model up by name in the registry. -/
def findModel (env : Env) (n : String) : Option Mdl :=
  env.find? (fun m => m.name = n)

/-- Modelled from the spec: `Model#getProperty` for a plain (undotted)
property name — lookup in the model's property list, `null` when absent. -/
def Mdl.getProperty (m : Mdl) (n : String) : Option Prp :=
  m.properties.find? (fun p => p.name = n)

/-- Modelled from the spec: whether a property is an Association
(`Property#isAssociation`). -/
def Prp.isAssociation (p : Prp) : Bool := p.association

/-- Modelled from the spec: `Property#isManyToMany` — an association mediated
by a through model. -/
def Prp.isManyToMany (p : Prp) : Bool := p.association && p.through.isSome

/-- Modelled from the spec: `Model#getAssociations` — the association
properties of the model, in declaration order. -/
def Mdl.getAssociationProps (m : Mdl) : List Prp :=
  m.properties.filter (fun p => p.isAssociation)

/-- Modelled from the spec: `Model#findAssociationsTo` (used by
`addWhereClause` on the through model) — the association properties whose
associated model is the given one. -/
def Mdl.findAssociationsTo (m : Mdl) (target : String) : List Prp :=
  m.properties.filter (fun p => p.isAssociation && p.associatedModelName = some target)

/-- Split a character list on a separator character (the semantics of
JavaScript `String.prototype.split` with a single-character separator). -/
def splitCharAux (sep : Char) : List Char → List Char → List (List Char)
  | [], acc => [acc.reverse]
  | c :: rest, acc =>
    if c = sep then acc.reverse :: splitCharAux sep rest []
    else splitCharAux sep rest (c :: acc)

/-- Split a string on a separator character. -/
def splitChar (s : String) (sep : Char) : List String :=
  (splitCharAux sep s.data []).map String.mk

/-- Does the string contain the character? -/
def strContains (s : String) (c : Char) : Bool :=
  s.data.any (fun x => x = c)

/-- Modelled from the spec: `Table#getProperty` resolution including the
dotted `association.property` form of §4.4 — the part before the first dot is
resolved as an association of this model, the remainder on the associated
model; a plain name is looked up directly.  Unknown names resolve to `null`. -/
def getPropertyJs (env : Env) (m : Mdl) (n : String) : Option Prp :=
  if strContains n '.' then
    match splitChar n '.' with
    | a :: rest =>
      match m.getProperty a with
      | some ap =>
        match ap.associatedModelName.bind (findModel env) with
        | some target => target.getProperty (String.intercalate "." rest)
        | none => none
      | none => none
    | [] => none
  else
    m.getProperty n

/-- `Table#getFirstProperty`: for a dotted key path, the association property
named by the part before the first dot (which may itself be `null`); `null`
for an undotted name. -/
def getFirstProperty (m : Mdl) (keyPath : String) : Option Prp :=
  if strContains keyPath '.' then
    match splitChar keyPath '.' with
    | a :: _ :: _ => m.getProperty a
    | _ => none
  else
    none

/-- `join('_')` on a JavaScript array of strings. -/
def joinU : List String → String
  | [] => ""
  | [x] => x
  | x :: y :: rest => x ++ "_" ++ joinU (y :: rest)

/-- Model of the external `inflection.underscore`: lowercase every uppercase
letter, preceding it with an underscore. -/
def underscore (s : String) : String :=
  String.join (s.data.map (fun c =>
    if c.isUpper then "_" ++ String.singleton c.toLower else String.singleton c))

/-- `String.prototype.toUpperCase`, implemented structurally over the
character list. -/
def strToUpper (s : String) : String :=
  String.mk (s.data.map Char.toUpper)

/-- Model of the external `inflection.camelize(name, true)`: lowercase the
first character. -/
def lowerFirst (s : String) : String :=
  match s.data with
  | [] => ""
  | c :: rest => String.mk (c.toLower :: rest)

/-- Does the character list `s` start with `pat`? -/
def strStartsWith : List Char → List Char → Bool
  | [], _ => true
  | _ :: _, [] => false
  | p :: ps, c :: cs => p = c && strStartsWith ps cs

/-- Does `sub` occur inside `s` (`String.prototype.indexOf(sub) >= 0`)? -/
def containsSubAux (sub : List Char) : List Char → Bool
  | [] => sub.isEmpty
  | c :: rest => strStartsWith sub (c :: rest) || containsSubAux sub rest

/-- Substring test on strings. -/
def containsSub (s sub : String) : Bool := containsSubAux sub.data s.data

/-- JavaScript `String.prototype.replace(pat, repl)` with a string pattern:
replaces only the first occurrence. -/
def replaceFirstAux (pat repl : List Char) : List Char → List Char
  | [] => []
  | c :: rest =>
    if strStartsWith pat (c :: rest) then repl ++ (c :: rest).drop pat.length
    else c :: replaceFirstAux pat repl rest

/-- `replaceFirst s pat repl`: replace the first occurrence of `pat` in `s`. -/
def replaceFirst (s pat repl : String) : String :=
  String.mk (replaceFirstAux pat.data repl.data s.data)

/-- A character matched by the regex class `\w`. -/
def isWordChar (c : Char) : Bool := c.isAlphanum || c = '_'

/-- After a `$word` match, try to match the optional `("...")` group of the
sqlish regex `/\$(\w+)(\("(.*?)"\))?/`: returns the (lazily matched) argument
and the remaining input. -/
def scanCallArg : List Char → Option (List Char × List Char)
  | [] => none
  | [_] => none
  | c1 :: c2 :: rest =>
    if c1 = '"' ∧ c2 = ')' then some ([], rest)
    else
      match scanCallArg (c2 :: rest) with
      | some (arg, rem) => some (c1 :: arg, rem)
      | none => none

/-- Entry point for the optional call group: expects `("` then a lazily
terminated `")`. -/
def takeCallArg : List Char → Option (List Char × List Char)
  | '(' :: '"' :: rest => scanCallArg rest
  | _ => none

theorem scanCallArg_length : ∀ (l a r : List Char),
    scanCallArg l = some (a, r) → r.length ≤ l.length := by
  intro l
  induction l with
  | nil => intro a r h; simp [scanCallArg] at h
  | cons c1 rest ih =>
    intro a r h
    cases rest with
    | nil => simp [scanCallArg] at h
    | cons c2 rest2 =>
      unfold scanCallArg at h
      split at h
      · simp only [Option.some.injEq, Prod.mk.injEq] at h
        obtain ⟨-, rfl⟩ := h
        simp only [List.length_cons]
        omega
      · split at h
        · rename_i arg rem heq
          simp only [Option.some.injEq, Prod.mk.injEq] at h
          obtain ⟨-, rfl⟩ := h
          have := ih arg rem heq
          simp only [List.length_cons] at this ⊢
          omega
        · simp at h

theorem takeCallArg_length : ∀ (l a r : List Char),
    takeCallArg l = some (a, r) → r.length ≤ l.length := by
  intro l a r h
  unfold takeCallArg at h
  split at h
  · rename_i rest
    have := scanCallArg_length rest a r h
    simp only [List.length_cons]
    omega
  · simp at h

theorem length_dropWhile_le (p : Char → Bool) (l : List Char) :
    (l.dropWhile p).length ≤ l.length := by
  induction l with
  | nil => simp
  | cons c rest ih =>
    rw [List.dropWhile_cons]
    split
    · simp only [List.length_cons]
      omega
    · simp

/-- The global-replace pass of the sqlish regex `/\$(\w+)(\("(.*?)"\))?/ig`:
for each match, `repl` receives the word and, when present, the quoted call
argument, and returns the substituted text (it can throw, since the
substitution callback calls `createReadOnlyStatement`). -/
def expandSqlishAux (repl : String → Option String → Except JsErr String) :
    List Char → Except JsErr String
  | [] => .ok ""
  | '$' :: rest =>
    let w := rest.takeWhile isWordChar
    if w.isEmpty then
      match expandSqlishAux repl rest with
      | .ok t => .ok ("$" ++ t)
      | .error e => .error e
    else
      match htca : takeCallArg (rest.dropWhile isWordChar) with
      | some (arg, rest2) =>
        (match repl (String.mk w) (some (String.mk arg)) with
        | .ok r =>
          match expandSqlishAux repl rest2 with
          | .ok t => .ok (r ++ t)
          | .error e => .error e
        | .error e => .error e)
      | none =>
        match repl (String.mk w) none with
        | .ok r =>
          match expandSqlishAux repl (rest.dropWhile isWordChar) with
          | .ok t => .ok (r ++ t)
          | .error e => .error e
        | .error e => .error e
  | c :: rest =>
    match expandSqlishAux repl rest with
    | .ok t => .ok (String.singleton c ++ t)
    | .error e => .error e
termination_by l => l.length
decreasing_by
  · simp only [List.length_cons]; omega
  · have h1 := takeCallArg_length (rest.dropWhile isWordChar) arg rest2 htca
    have h2 := length_dropWhile_le isWordChar rest
    simp only [List.length_cons]; omega
  · have h2 := length_dropWhile_le isWordChar rest
    simp only [List.length_cons]; omega
  · simp only [List.length_cons]; omega

/-- Expand a sqlish template string with the given substitution callback. -/
def expandSqlish (repl : String → Option String → Except JsErr String)
    (s : String) : Except JsErr String :=
  expandSqlishAux repl s.data

/-- `Table#createReadOnlyStatement`: the correlated `COUNT(*)` subquery for a
property counting a target association; resolves the through table for a
many-to-many target. -/
def createReadOnlyStatement (env : Env) (property : Prp)
    (targetPropertyName : String) : Except JsErr String := do
  match findModel env property.modelName with
  | none => .error (.typeErr "Cannot read properties of undefined (property.model)")
  | some m =>
    match m.getProperty targetPropertyName with
    | none => .error (.typeErr "Cannot read properties of null (targetProperty)")
    | some targetProperty =>
      if !targetProperty.isAssociation then
        .error (.err "Count only works on associations.")
      else do
        let tc : Mdl × String ←
          match targetProperty.through with
          | some throughName =>
            match findModel env throughName with
            | none => Except.error (JsErr.typeErr "Cannot read properties of undefined (through)")
            | some throughModel =>
              match targetProperty.throughPropertyName.bind throughModel.getProperty with
              | none => Except.error (JsErr.typeErr "Cannot read properties of undefined (throughProperty)")
              | some tp => Except.ok (throughModel, tp.columnName)
          | none =>
            match targetProperty.associatedModelName.bind (findModel env) with
            | none => Except.error (JsErr.typeErr "Cannot read properties of undefined (associatedModel)")
            | some am =>
              match targetProperty.relationshipVia with
              | none => Except.error (JsErr.typeErr "Cannot read properties of undefined (relationshipVia)")
              | some mp =>
                match (findModel env mp.1).bind (fun mm => mm.getProperty mp.2) with
                | none => Except.error (JsErr.typeErr "Cannot read properties of undefined (relationshipVia)")
                | some rv => Except.ok (am, rv.columnName)
        .ok ("(SELECT COUNT(*) FROM " ++ quote tc.1.tableName ++ " WHERE " ++
          quote m.tableName ++ ".id = " ++ quote tc.1.tableName ++ "." ++ tc.2 ++ ")")

/-- The counting-property memoization of `table.js` (`if(options.counting &&
!options.sqlish) options.sqlish = createReadOnlyStatement(...)`), expressed
functionally: the effective sqlish text of a property. -/
def effectiveSqlish (env : Env) (p : Prp) : Except JsErr (Option String) :=
  match p.counting, strTruthy p.sqlish with
  | some target, false => (createReadOnlyStatement env p target).map some
  | _, _ => .ok p.sqlish

/-- The sqlish substitution callback used by `createSelectStatement` and
`addSelectColumnsForAssociation`: a `$name("arg")` token becomes the
correlated count subquery, a bare `$name` token becomes
`qualifier.underscore(name)`. -/
def sqlishReplQualified (env : Env) (property : Prp) (qualifier : String) :
    String → Option String → Except JsErr String :=
  fun nm arg =>
    match arg with
    | some target => createReadOnlyStatement env property target
    | none => .ok (qualifier ++ "." ++ underscore nm)

/-- The sqlish substitution callback used by `addReturningClause`: a bare
`$name` token becomes `underscore(name)` without a table qualifier. -/
def sqlishReplBare (env : Env) (property : Prp) :
    String → Option String → Except JsErr String :=
  fun nm arg =>
    match arg with
    | some target => createReadOnlyStatement env property target
    | none => .ok (underscore nm)

/-- `Table.WHERE_TRANSFORMER`: the operator table of the where clause builder.
A missing key yields `none` (a falsy lookup in the source). -/
def WHERE_TRANSFORMER : String → Option (List String)
  | "$is" => some ["=", "IS"]
  | "$gte" => some [">="]
  | "$gt" => some [">"]
  | "$lt" => some ["<"]
  | "$lte" => some ["<="]
  | "$not" => some ["!=", "IS NOT"]
  | "$like" => some ["LIKE"]
  | "$ilike" => some ["ILIKE"]
  | "$regex" => some ["~"]
  | "$or" => some []
  | "$in" => some []
  | _ => none

/-- The per-element normalization applied to IN-list members and `$not`
arrays: a value exposing `toQueryValue()` is converted, everything else passes
through. -/
def mapToQueryValue : Value → Value
  | .vQueryValue s => .vStr s
  | v => v

/-- `Object.keys` enumeration of a JavaScript array, pairing each element
with its stringified index. -/
def enumFields (l : List Value) : List (String × Value) :=
  l.enum.map (fun p => (toString p.1, p.2))

/-- `Object.keys`-style own-field enumeration of a `Value` (used where the
source iterates the keys of a supposed object): plain objects yield their
fields, arrays their indexed elements, strings their indexed characters,
`null` throws a `TypeError`, other primitives and opaque objects yield no
enumerable fields. -/
def jsOwnFields : Value → Except JsErr (List (String × Value))
  | .vObj fields => .ok fields
  | .vNull => .error (.typeErr "Cannot convert undefined or null to object")
  | .vArr elems => .ok (enumFields elems)
  | .vStr s => .ok (enumFields (s.data.map (fun c => Value.vStr (String.singleton c))))
  | _ => .ok []

/-- One `key: value` pair of an operator object in `addValueClause` (source
lines 712-756): transformer dispatch, the `$or` / `$in` interceptions, the
NULL-safety check, and the `$not`-array NOT IN case. -/
def valueObjEntry (columnName : String) (key : String) (v : Value) :
    Except JsErr (List Wc) :=
  match WHERE_TRANSFORMER key with
  | none => .error (.err ("Invalid transformer `" ++ key ++ "`."))
  | some transformer =>
    if key = "$or" then
      match v with
      | .vArr ors => .ok [.wOrVals columnName ors]
      | _ => .error (.typeErr "ors.forEach is not a function")
    else if key = "$in" then
      .ok [.wIn columnName v]
    else
      match v with
      | .vNull =>
        match transformer with
        | _ :: t1 :: _ => .ok [.wRaw (columnName ++ (" " ++ t1 ++ " null")) []]
        | _ => .error (.err ("Cannot use transformer `" ++ key ++ "` with NULL value."))
      | .vArr elems =>
        if key = "$not" then .ok [.wNotIn columnName (elems.map mapToQueryValue)]
        else .ok [.wOp columnName (transformer.headD "") (.vArr elems)]
      | other => .ok [.wOp columnName (transformer.headD "") other]

/-- The inner `addValueClause(whereValue)` closure of
`Table#addValueClause` for a non-array value (source lines 688-761), without
the rawWhere interception. -/
def valueSingleCore (columnName : String) (wv : Value) : Except JsErr (List Wc) :=
  match wv with
  | .vNull => .ok [.wNull columnName]
  | .vQueryValue s => .ok [.wEq columnName (.vStr s)]
  | .vBuilder a b c d => .ok [.wEq columnName (.vBuilder a b c d)]
  | .vObj fields =>
    fields.foldlM (fun acc kv => do
      let es ← valueObjEntry columnName kv.1 kv.2
      pure (acc ++ es)) []
  | .vArr elems =>
    (enumFields elems).foldlM (fun acc kv => do
      let es ← valueObjEntry columnName kv.1 kv.2
      pure (acc ++ es)) []
  | v => .ok [.wEq columnName v]

/-- The inner closure of `Table#addValueClause` including the
`property.options.rawWhere` interception (source lines 689-698). -/
def valueSingle (columnName : String) (wv : Value) (property : Option Prp) :
    Except JsErr (List Wc) :=
  match property with
  | some p =>
    if strTruthy p.rawWhere then
      let raw := p.rawWhere.getD ""
      if containsSub raw "$1" then .ok [.wRaw (replaceFirst raw "$1" "?") [wv]]
      else .ok [.wRaw raw []]
    else valueSingleCore columnName wv
  | none => valueSingleCore columnName wv

/-- `Table#addValueClause` as the list of WHERE conditions it appends: an
array value becomes an IN list with per-element conversion, anything else is
handled by the inner closure. -/
def valueEntries (columnName : String) (value : Value) (property : Option Prp) :
    Except JsErr (List Wc) :=
  match value with
  | .vArr elems => .ok [.wIn columnName (.vArr (elems.map mapToQueryValue))]
  | v => valueSingle columnName v property

/-- Resolve `options.relationshipVia` (a direct property reference in the
source) through the registry. -/
def resolveVia (env : Env) (p : Prp) : Option Prp :=
  p.relationshipVia.bind (fun mp => (findModel env mp.1).bind (fun m => m.getProperty mp.2))

/-- The column-name computation of `Table#addWhereClause` for a non-dotted
key (source lines 876-892, duplicated at 820-836 inside the `$or` branch):
many-to-many resolves through the through table, `hasOne` uses the
`<associated-table>_<property>` join alias, otherwise the owning model's
table qualifies the property column. -/
def resolveColumnName (env : Env) (self : Mdl) (property : Prp)
    (firstProperty : Option Prp) : Except JsErr String :=
  if property.isManyToMany then
    match property.through.bind (findModel env) with
    | none => .error (.typeErr "Cannot read properties of undefined (through)")
    | some throughModel =>
      match resolveVia env property with
      | none => .error (.typeErr "Cannot read properties of undefined (relationshipVia)")
      | some rv =>
        match (throughModel.findAssociationsTo rv.modelName).head? with
        | none => .error (.typeErr "Cannot read properties of undefined (findAssociationsTo)")
        | some ap => .ok (throughModel.tableName ++ "." ++ ap.columnName)
  else if strTruthy property.hasOne then
    match resolveVia env property with
    | none => .error (.typeErr "Cannot read properties of undefined (relationshipVia)")
    | some rv =>
      match findModel env rv.modelName with
      | none => .error (.typeErr "Cannot read properties of undefined (relationshipVia.model)")
      | some rvm => .ok (rvm.tableName ++ "_" ++ property.name ++ ".id")
  else
    match firstProperty with
    | some fp =>
      match findModel env property.modelName with
      | none => .error (.typeErr "Cannot read properties of undefined (property.model)")
      | some m => .ok (m.tableName ++ "_" ++ fp.name ++ "." ++ property.columnName)
    | none =>
      match findModel env property.modelName with
      | none => .error (.typeErr "Cannot read properties of undefined (property.model)")
      | some m => .ok (m.tableName ++ "." ++ property.columnName)

/-- The `whereExists` subquery emitted for a dotted key path (source lines
856-873, duplicated at 800-817): the target model's table, the value
conditions on the target column, and the correlation back to this table. -/
def existsSubquery (env : Env) (self : Mdl) (property : Prp)
    (firstProperty : Prp) (whereValue : Value) : Except JsErr Wc := do
  match findModel env property.modelName with
  | none => .error (.typeErr "Cannot read properties of undefined (property.model)")
  | some targetModel => do
    let sub ← valueEntries property.columnName whereValue (some firstProperty)
    let corr ←
      if firstProperty.isManyToMany then
        match firstProperty.through.bind (findModel env) with
        | none => Except.error (JsErr.typeErr "Cannot read properties of undefined (through)")
        | some throughModel =>
          match firstProperty.throughPropertyName.bind throughModel.getProperty with
          | none => Except.error (JsErr.typeErr "Cannot read properties of undefined (otherProperty)")
          | some otherProperty =>
            Except.ok (Wc.wRaw (otherProperty.columnName ++ " = \"" ++ self.tableName ++ "\".\"id\"") [])
      else
        match resolveVia env firstProperty with
        | none => Except.error (JsErr.typeErr "Cannot read properties of undefined (relationshipVia)")
        | some rv =>
          if rv.allowed then
            Except.ok (Wc.wRaw (rv.columnName ++ " = " ++ quote self.tableName ++ ".id") [])
          else
            Except.ok (Wc.wRaw (self.tableName ++ "." ++ firstProperty.columnName ++ " = " ++ targetModel.tableName ++ ".id") [])
    .ok (.wExists targetModel.tableName (sub ++ [corr]))

/-- One non-`$or` key of a where map (source lines 845-896), with the
unknown-property error message passed in because the `$or` branch of the
source interpolates the outer loop variable (`"$or"`) instead of the
offending key. -/
def whereEntryWith (env : Env) (self : Mdl) (errMsg : String)
    (propertyName : String) (whereValue : Value) : Except JsErr (List Wc) := do
  match getPropertyJs env self propertyName with
  | none => .error (.err errMsg)
  | some property =>
    match getFirstProperty self propertyName with
    | some firstProperty => do
      let e ← existsSubquery env self property firstProperty whereValue
      .ok [e]
    | none => do
      let columnName ← resolveColumnName env self property none
      valueEntries columnName whereValue (some property)

/-- The unknown-property message of the non-`$or` path of `addWhereClause`
(source line 849). -/
def whereUnknownMsg (self : Mdl) (propertyName : String) : String :=
  "Cannot find property with name `" ++ propertyName ++ "` on table `" ++
    self.tableName ++ "`. Did you specify an invalid property name in where clause?"

/-- The unknown-property message raised inside a `$or` branch (source line
794): the source interpolates the outer `propertyName` variable, which is the
literal key `$or`, not the offending property name. -/
def whereOrUnknownMsg (self : Mdl) : String :=
  "Cannot find property with name `$or` on $or on table `" ++ self.tableName ++
    "`. Did you specify an invalid property name in where clause?"

/-- The `$or` group of `addWhereClause` (source lines 782-844): each element
of the array is a conjunction of per-key conditions, the branches are
disjoined. -/
def whereOrGroups (env : Env) (self : Mdl) (wv : Value) : Except JsErr Wc := do
  match wv with
  | .vArr ors => do
    let branches ← ors.mapM (fun orv => do
      let fields ← jsOwnFields orv
      fields.foldlM (fun acc kv => do
        let es ← whereEntryWith env self (whereOrUnknownMsg self) kv.1 kv.2
        pure (acc ++ es)) ([] : List Wc))
    .ok (.wOrGroups branches)
  | _ => .error (.typeErr "ors.forEach is not a function")

/-- `Table#addWhereClause` as the list of conditions it appends to the query,
iterating the keys of the where map in order. -/
def whereEntries (env : Env) (self : Mdl) (wm : List (String × Value)) :
    Except JsErr (List Wc) :=
  wm.foldlM (fun acc kv => do
    if kv.1 = "$or" then do
      let g ← whereOrGroups env self kv.2
      pure (acc ++ [g])
    else do
      let es ← whereEntryWith env self (whereUnknownMsg self kv.1) kv.1 kv.2
      pure (acc ++ es)) []

/-- `Table#addWhereClause`: `Object.keys(null)` throws, otherwise the
computed conditions are appended to the query's WHERE list. -/
def addWhereClause (env : Env) (self : Mdl) (q : Query)
    (wm : Option (List (String × Value))) : Except JsErr Query :=
  match wm with
  | none => .error (.typeErr "Cannot convert undefined or null to object")
  | some m => (whereEntries env self m).map (fun es => { q with wheres := q.wheres ++ es })

/-- A value of a sort map: a string (`'asc'`/`'desc'`, case-insensitive) or a
number (negative means descending). -/
inductive SortVal where
  | s (v : String) : SortVal
  | n (v : Int) : SortVal
deriving DecidableEq, Repr

/-- The `sort` argument: a string (rejected by `addSortClause`) or a map of
property names to sort values. -/
inductive SortSpec where
  | str (v : String) : SortSpec
  | map (entries : List (String × SortVal)) : SortSpec
deriving DecidableEq, Repr

/-- JavaScript truthiness of the `sort` argument (`undefined`, `null` and
`""` are falsy). -/
def sortTruthy : Option SortSpec → Bool
  | none => false
  | some (.str s) => s ≠ ""
  | some (.map _) => true

/-- One entry of `Table#addSortClause` (source lines 908-943): property
lookup, ASC/DESC normalization, and column qualification (virtual properties
stay unqualified). -/
def sortEntryFor (env : Env) (self : Mdl) (propertyName : String)
    (v : SortVal) : Except JsErr (String × String) := do
  match getPropertyJs env self propertyName with
  | none => .error (.err ("Warning: cannot find property `" ++ propertyName ++ "` in orderBy."))
  | some property => do
    let sortValue ←
      match v with
      | .s str =>
        let u := strToUpper str
        if u = "ASC" ∨ u = "DESC" then Except.ok u
        else Except.error (JsErr.err ("Value `" ++ u ++ "` is not allowed in orderBy."))
      | .n i => Except.ok (if i < 0 then "DESC" else "ASC")
    if property.isVirtual then
      .ok (property.columnName, sortValue)
    else
      .ok (self.tableName ++ "." ++ property.columnName, sortValue)

/-- The order-by pairs `Table#addSortClause` appends for a truthy sort
argument. -/
def sortEntriesCore (env : Env) (self : Mdl) : SortSpec →
    Except JsErr (List (String × String))
  | .str _ => .error (.err "Ordering by a string is not allowed anymore. Use PropertyTypes#Aggregate to order by something more advanced.")
  | .map entries =>
    entries.foldlM (fun acc kv => do
      let e ← sortEntryFor env self kv.1 kv.2
      pure (acc ++ [e])) []

/-- The order-by pairs `Table#addSortClause` appends (empty for a falsy sort
argument). -/
def sortConds (env : Env) (self : Mdl) (sort : Option SortSpec) :
    Except JsErr (List (String × String)) :=
  if sortTruthy sort then
    match sort with
    | some sp => sortEntriesCore env self sp
    | none => .ok []
  else .ok []

/-- `Table#addSortClause`. -/
def addSortClause (env : Env) (self : Mdl) (q : Query)
    (sort : Option SortSpec) : Except JsErr Query :=
  (sortConds env self sort).map (fun es => { q with orderBys := q.orderBys ++ es })

/-- `Table#addLimitClause`: only a positive limit is applied. -/
def addLimitClause (q : Query) (limit : Nat) : Query :=
  if 0 < limit then { q with limit := some limit } else q

/-- `Table#addOffsetClause`: only a positive offset is applied. -/
def addOffsetClause (q : Query) (skip : Nat) : Query :=
  if 0 < skip then { q with offset := some skip } else q

/-- The RETURNING list built by `Table#addReturningClause` (source lines
960-984): `*` followed by, for every property whose effective sqlish text is
set and which is not an aggregate, the expanded expression aliased to the
property's column. -/
def returningList (env : Env) (self : Mdl) : Except JsErr (List String) := do
  let rest ← self.properties.foldlM (fun acc property => do
    let sq ← effectiveSqlish env property
    match sq with
    | some s =>
      if s ≠ "" ∧ ¬property.isAggregate then do
        let expanded ← expandSqlish (sqlishReplBare env property) s
        pure (acc ++ ["(" ++ expanded ++ ") as " ++ property.columnName])
      else
        pure acc
    | none => pure acc) []
  .ok ("*" :: rest)

/-- `Table#addReturningClause`. -/
def addReturningClause (env : Env) (self : Mdl) (q : Query) : Except JsErr Query :=
  (returningList env self).map (fun r => { q with returning := r })

/-- The result of processing one `setMap` entry in `Table#addSetClause`
(source lines 168-199): assignments for the update map, atomic increments and
atomic decrements. -/
def setEntry (env : Env) (self : Mdl) (propertyName : String) (setValue : Value) :
    Except JsErr (List (String × Value) × List (String × Value) × List (String × Value)) := do
  match getPropertyJs env self propertyName with
  | none => .error (.err ("Could not find property `" ++ propertyName ++ "` in `" ++ self.tableName ++ "`."))
  | some property =>
    if property.allowed then
      let columnName := property.columnName
      match setValue with
      | .vQueryValue s => .ok ([(columnName, Value.vStr s)], [], [])
      | .vObj fields =>
        fields.foldlM (fun acc kv =>
          if kv.1 = "$inc" then .ok (acc.1, acc.2.1 ++ [(columnName, kv.2)], acc.2.2)
          else if kv.1 = "$decr" then .ok (acc.1, acc.2.1, acc.2.2 ++ [(columnName, kv.2)])
          else .error (.err ("Invalid transformer `" ++ kv.1 ++ "`."))) ([], [], [])
      | .vArr elems =>
        (enumFields elems).foldlM (fun acc kv =>
          if kv.1 = "$inc" then .ok (acc.1, acc.2.1 ++ [(columnName, kv.2)], acc.2.2)
          else if kv.1 = "$decr" then .ok (acc.1, acc.2.1, acc.2.2 ++ [(columnName, kv.2)])
          else .error (.err ("Invalid transformer `" ++ kv.1 ++ "`."))) ([], [], [])
      | v => .ok ([(columnName, v)], [], [])
    else
      .ok ([], [], [])

/-- JavaScript object-property assignment on an association-list map: an
existing key is overwritten in place, a new key is appended. -/
def setKeyJs (m : List (String × Value)) (k : String) (v : Value) :
    List (String × Value) :=
  if m.any (fun e => e.1 = k) then
    m.map (fun e => if e.1 = k then (k, v) else e)
  else m ++ [(k, v)]

/-- The accumulated result of `Table#addSetClause` over a whole set map:
the `updateMap` (later assignments to the same column overwrite earlier
ones, as on a JavaScript object) and the increment/decrement lists. -/
def setResult (env : Env) (self : Mdl) (sm : List (String × Value)) :
    Except JsErr (List (String × Value) × List (String × Value) × List (String × Value)) :=
  sm.foldlM (fun acc kv => do
    let r ← setEntry env self kv.1 kv.2
    let upd := r.1.foldl (fun mp e => setKeyJs mp e.1 e.2) acc.1
    pure (upd, acc.2.1 ++ r.2.1, acc.2.2 ++ r.2.2)) ([], [], [])

/-- `Table#addSetClause`: a falsy set map is ignored; otherwise the update
map is applied via `query.update(...)` and the directives as atomic
increments/decrements. -/
def addSetClause (env : Env) (self : Mdl) (q : Query)
    (sm : Option (List (String × Value))) : Except JsErr Query :=
  match sm with
  | none => .ok q
  | some m =>
    (setResult env self m).map (fun r =>
      { q with updateMap := r.1,
               increments := q.increments ++ r.2.1,
               decrements := q.decrements ++ r.2.2 })

/-- The alias for the table reached by a chain of associations (source lines
327-329 and 448-450): the root table name and each association name in
traversal order, joined by underscores. -/
def chainAlias (self : Mdl) (names : List String) : String :=
  self.tableName ++ "_" ++ joinU names

/-- The alias of the previous step of a chain (source lines 323-325): the
same rule applied to the chain without its last element — the root table name
itself for a chain of length one. -/
def chainPreviousAlias (self : Mdl) (names : List String) : String :=
  joinU (self.tableName :: names.dropLast)

/-- The join clauses `Table#addJoinStatement` emits for the chain of
associations traversed to reach the joined relation (source lines 308-382).
Many-to-many emits two `leftOuterJoin`s through the through table; the other
kinds use `innerJoin` when the association is declared required and
`leftOuterJoin` otherwise; an association with none of the kinds emits no
join (and throws when it is auto-fetch). -/
def joinEntries (env : Env) (self : Mdl) (associations : List Prp) :
    Except JsErr (List Join) := do
  match associations.getLast? with
  | none => .error (.typeErr "Cannot read properties of undefined (association)")
  | some association =>
    let names := associations.map (fun a => a.name)
    let previousAlias := chainPreviousAlias self names
    let aliasName := chainAlias self names
    if association.isManyToMany then
      match association.through.bind (findModel env) with
      | none => .error (.typeErr "Cannot read properties of undefined (through)")
      | some associatedTable =>
        let relation1Property := association.throughPropertyName.bind associatedTable.getProperty
        let relation2Property := (resolveVia env association).bind (fun rv =>
          rv.throughPropertyName.bind associatedTable.getProperty)
        match relation1Property with
        | none => .error (.err ("Could not find property `" ++ lowerFirst association.modelName ++ "` on `" ++ quote associatedTable.tableName ++ "`."))
        | some r1 =>
          match relation2Property with
          | none =>
            match association.associatedModelName.bind (findModel env) with
            | none => Except.error (JsErr.typeErr "Cannot read properties of undefined (associatedModel)")
            | some am => Except.error (JsErr.err ("Could not find property `" ++ lowerFirst am.name ++ "` on `" ++ quote associatedTable.tableName ++ "`."))
          | some r2 =>
            match association.associatedModelName.bind (findModel env) with
            | none => Except.error (JsErr.typeErr "Cannot read properties of undefined (associatedModel)")
            | some am =>
              .ok [
                Join.mk associatedTable.tableName
                  (associatedTable.tableName ++ "." ++ r1.columnName)
                  (previousAlias ++ ".id") JoinType.leftOuter,
                Join.mk (am.tableName ++ " as " ++ aliasName)
                  (associatedTable.tableName ++ "." ++ r2.columnName)
                  (aliasName ++ ".id") JoinType.leftOuter]
    else
      match association.associatedModelName.bind (findModel env) with
      | none => .error (.typeErr "Cannot read properties of undefined (associatedModel)")
      | some referenceModel =>
        let joinType := if association.required then JoinType.inner else JoinType.leftOuter
        match association.hasOne with
        | some hasOneName =>
          if hasOneName ≠ "" then
            match referenceModel.getProperty hasOneName with
            | none => Except.error (JsErr.typeErr "Cannot read properties of undefined (associationProperty)")
            | some associationProperty =>
              Except.ok [Join.mk (referenceModel.tableName ++ " as " ++ aliasName)
                (previousAlias ++ ".id")
                (aliasName ++ "." ++ associationProperty.columnName) joinType]
          else joinNonHasOne env self association referenceModel previousAlias aliasName joinType
        | none => joinNonHasOne env self association referenceModel previousAlias aliasName joinType
where
  /-- The `hasMany` / `belongsTo` / auto-fetch-error / no-op arms of the
  non-many-to-many branch. -/
  joinNonHasOne (env : Env) (self : Mdl) (association : Prp)
      (referenceModel : Mdl) (previousAlias aliasName : String) (joinType : JoinType) :
      Except JsErr (List Join) :=
    match association.hasMany with
    | some hasManyName =>
      if hasManyName ≠ "" then
        match referenceModel.getProperty hasManyName with
        | none => Except.error (JsErr.err ("Could not find association property `" ++ hasManyName ++ "` on `" ++ association.modelName ++ "`."))
        | some associationProperty =>
          Except.ok [Join.mk (referenceModel.tableName ++ " as " ++ aliasName)
            (previousAlias ++ ".id")
            (aliasName ++ "." ++ associationProperty.columnName) joinType]
      else joinBelongsToOrRest association referenceModel previousAlias aliasName joinType
    | none => joinBelongsToOrRest association referenceModel previousAlias aliasName joinType
  /-- The `belongsTo` / auto-fetch-error / no-op arms. -/
  joinBelongsToOrRest (association : Prp) (referenceModel : Mdl)
      (previousAlias aliasName : String) (joinType : JoinType) :
      Except JsErr (List Join) :=
    if association.belongsTo then
      Except.ok [Join.mk (referenceModel.tableName ++ " as " ++ aliasName)
        (previousAlias ++ "." ++ association.columnName)
        (aliasName ++ ".id") joinType]
    else if association.autoFetch then
      Except.error (JsErr.err ("Unknown association type in `" ++ association.name ++ "`."))
    else
      Except.ok []

/-- `Table#addJoinStatement`: appends the computed joins to the query. -/
def addJoinStatement (env : Env) (self : Mdl) (q : Query)
    (associations : List Prp) : Except JsErr Query :=
  (joinEntries env self associations).map (fun js => { q with joins := q.joins ++ js })

/-- The column list `Table#addSelectColumnsForAssociation` emits for a chain
of associations (source lines 407-485): the dotted-path select filter, the
`autoFetchProperties` whitelist, per-property aliasing through the chain, and
computed (sqlish) columns for non-storable properties. -/
def selectColumnEntries (env : Env) (self : Mdl) (associations : List Prp)
    (select : Option (List String)) : Except JsErr (List String) := do
  match associations.getLast? with
  | none => .error (.typeErr "Cannot read properties of undefined (referenceProperty)")
  | some referenceProperty =>
    match referenceProperty.associatedModelName.bind (findModel env) with
    | none => .error (.typeErr "Cannot read properties of undefined (associatedModel)")
    | some model => do
      let startSelect := String.join (associations.map (fun a => a.name ++ "."))
      let fromSelect : List String × Bool :=
        match select with
        | some sel =>
          sel.foldl (fun acc sp =>
            if strStartsWith startSelect.data sp.data then
              let propertyName := String.mk (sp.data.drop startSelect.data.length)
              if propertyName = "*" then (acc.1, true)
              else (acc.1 ++ [propertyName], acc.2)
            else acc) ([], false)
        | none => ([], false)
      let withAuto : List String × Bool × Bool :=
        match referenceProperty.autoFetchProperties with
        | some afp => (fromSelect.1 ++ afp, fromSelect.2, true)
        | none => (fromSelect.1, fromSelect.2, select.isSome)
      let selectProperties := withAuto.1
      let selectAllProperties := withAuto.2.1
      let selectIsArray := withAuto.2.2
      let aliasName := joinU (self.tableName :: associations.map (fun a => a.name))
      model.properties.foldlM (fun acc property => do
        if !selectIsArray || selectAllProperties || property.name = "id" ||
            selectProperties.contains property.name then
          if property.allowed then
            pure (acc ++ [aliasName ++ "." ++ property.columnName ++ " as " ++
              String.join (associations.map (fun a => a.name ++ property.columnNameIndicator)) ++
              property.columnName])
          else do
            let sq ← effectiveSqlish env property
            match sq with
            | some s =>
              if s ≠ "" then do
                let expanded ← expandSqlish (sqlishReplQualified env property aliasName) s
                pure (acc ++ ["(" ++ expanded ++ ") as " ++
                  String.join (associations.map (fun a => a.name ++ property.columnNameIndicator)) ++
                  property.columnName])
              else pure acc
            | none => pure acc
        else pure acc) []

mutual
/-- `Table#addAssociation` (source lines 384-405), expressed as the columns
and joins it appends: the select columns and join statement for the chain,
then — while the chain is shorter than the auto-fetch depth bound — the
additions for every auto-fetch child association admitted by the parent's
`autoFetchProperties` whitelist. -/
def associationAdditions (env : Env) (self : Mdl) (associations : List Prp)
    (select : Option (List String)) (autoFetchDepth : Nat) :
    Except JsErr (List String × List Join) := do
  let cols ← selectColumnEntries env self associations select
  let js ← joinEntries env self associations
  match associations.getLast? with
  | none => .ok (cols, js)
  | some lastAssociation =>
    if h : associations.length < autoFetchDepth then
      match lastAssociation.associatedModelName.bind (findModel env) with
      | some associatedModel => do
        let childAdds ← childAssociationAdditions env self associations lastAssociation
          associatedModel.getAssociationProps select autoFetchDepth h
        .ok (cols ++ childAdds.1, js ++ childAdds.2)
      | none => .ok (cols, js)
    else .ok (cols, js)
termination_by (autoFetchDepth - associations.length, 1, 0)

/-- The recursion of `addAssociation` over the child associations of the last
chain element. -/
def childAssociationAdditions (env : Env) (self : Mdl) (associations : List Prp)
    (lastAssociation : Prp) (children : List Prp) (select : Option (List String))
    (autoFetchDepth : Nat) (h : associations.length < autoFetchDepth) :
    Except JsErr (List String × List Join) :=
  match children with
  | [] => .ok ([], [])
  | child :: rest => do
    let first ←
      if child.autoFetch &&
         (match lastAssociation.autoFetchProperties with
          | none => true
          | some afp => afp.contains child.name) then
        associationAdditions env self (associations ++ [child]) select autoFetchDepth
      else Except.ok ([], [])
    let restAdds ← childAssociationAdditions env self associations lastAssociation rest
      select autoFetchDepth h
    .ok (first.1 ++ restAdds.1, first.2 ++ restAdds.2)
termination_by (autoFetchDepth - associations.length, 0, children.length)
end

/-- `Table#addAssociation` applied to a query. -/
def addAssociation (env : Env) (self : Mdl) (q : Query) (associations : List Prp)
    (select : Option (List String)) (autoFetchDepth : Nat) : Except JsErr Query :=
  (associationAdditions env self associations select autoFetchDepth).map (fun a =>
    { q with columns := q.columns ++ a.1, joins := q.joins ++ a.2 })

/-- The `group` argument of `createSelectStatement`: a string, an array of
property names, or any other (truthy) value, which the source rejects. -/
inductive GroupArg where
  | str (s : String) : GroupArg
  | arr (l : List String) : GroupArg
  | other : GroupArg
deriving DecidableEq, Repr

/-- JavaScript truthiness of the `group` argument. -/
def groupTruthy : Option GroupArg → Bool
  | none => false
  | some (.str s) => s ≠ ""
  | some (.arr _) => true
  | some .other => true

/-- JavaScript string conversion of the `group` argument, as interpolated
into the invalid-group error message. -/
def groupToString : GroupArg → String
  | .str s => s
  | .arr l => String.intercalate "," l
  | .other => "[object Object]"

/-- The GROUP BY column list for a list of group property names (source lines
623-631). -/
def groupColumnsOf (env : Env) (self : Mdl) (group : Option GroupArg)
    (names : List String) : Except JsErr (List String) :=
  names.foldlM (fun acc propertyName =>
    match getPropertyJs env self propertyName with
    | none => .error (.err ("Invalid group by property `" ++ (group.elim "" groupToString) ++ "`."))
    | some property => .ok (acc ++ [self.tableName ++ "." ++ property.columnName])) []

/-- The GROUP BY handling of `createSelectStatement` (source lines 610-632):
a falsy group adds nothing, a string or array is normalized to property
names, anything else raises the invalid-group error. -/
def groupColumns (env : Env) (self : Mdl) (group : Option GroupArg) :
    Except JsErr (List String) :=
  if groupTruthy group then
    match group with
    | some (.str s) => groupColumnsOf env self group [s]
    | some (.arr l) => groupColumnsOf env self group l
    | some .other => .error (.err "Invalid groupBy. Please provider either an array or a string.")
    | none => .ok []
  else .ok []

/-- The sqlish sort-column preprocessing of the CTE branch of
`createSelectStatement` (source lines 531-553): for each sort key, the
property is read from the property map without a null check, and a computed
(sqlish) property contributes an expanded column to the inner query. -/
def cteSortColumnAdd (env : Env) (self : Mdl) (acc : List String)
    (pOpt : Option Prp) : Except JsErr (List String) :=
  match pOpt with
  | none => .error (.typeErr "Cannot read properties of undefined (property)")
  | some property => do
    let sq ← effectiveSqlish env property
    match sq with
    | some s =>
      if s ≠ "" then do
        let expanded ← expandSqlish (sqlishReplQualified env property self.tableName) s
        pure (acc ++ ["(" ++ expanded ++ ") as " ++ quote property.columnName])
      else pure acc
    | none => pure acc

/-- The columns the CTE sort preprocessing adds to the inner query, iterating
`Object.keys(sort)` (for a truthy string sort those are the character
indices). -/
def cteSortColumns (env : Env) (self : Mdl) (sort : Option SortSpec) :
    Except JsErr (List String) :=
  if sortTruthy sort then
    match sort with
    | some (.map entries) =>
      entries.foldlM (fun acc kv => cteSortColumnAdd env self acc (self.getProperty kv.1)) []
    | some (.str s) =>
      (List.range s.length).foldlM (fun acc i =>
        cteSortColumnAdd env self acc (self.getProperty (toString i))) []
    | none => .ok []
  else .ok []

/-- The own-column list of `createSelectStatement` (source lines 556-582):
per property, the visibility condition
`!hidden && ((!selectIsArray && !aggregate) || (name == 'id' && !group) ||
(select && select.includes(name)))` — the hidden check guards all three
disjuncts — then either the qualified storage column or the expanded
computed (sqlish) column. -/
def baseColumns (env : Env) (self : Mdl) (group : Option GroupArg)
    (select : Option (List String)) : Except JsErr (List String) :=
  let selectIsArray := select.isSome
  self.properties.foldlM (fun acc property => do
    if !property.isHidden &&
        ((!selectIsArray && !property.isAggregate)
          || (property.name = "id" && !groupTruthy group)
          || (select.elim false (fun sel => sel.contains property.name))) then
      if property.allowed then
        pure (acc ++ [self.tableName ++ "." ++ property.columnName])
      else do
        let sq ← effectiveSqlish env property
        match sq with
        | some s =>
          if s ≠ "" then do
            let expanded ← expandSqlish (sqlishReplQualified env property self.tableName) s
            pure (acc ++ ["(" ++ expanded ++ ") as " ++ quote property.columnName])
          else pure acc
        | none => pure acc
    else pure acc) []

/-- Key lookup on a where map. -/
def lookupW (m : List (String × Value)) (k : String) : Option Value :=
  (m.find? (fun e => e.1 = k)).map (fun e => e.2)

/-- Whether an association is part of the fetch graph of a select: auto-fetch
or explicitly requested. -/
def fetchedAssociation (fetchAssociations : Option (List String)) (a : Prp) : Bool :=
  a.autoFetch || (fetchAssociations.elim false (fun f => f.contains a.name))

/-- One iteration of the association loop of `createSelectStatement` (source
lines 584-598) for association `a`, acting on the pair (select query,
optional inner CTE query): a fetched association is joined (with its columns)
into the select query; an association merely referenced by name in the where
map is joined into the inner CTE query when one exists, else into the select
query; reading `whereMap[name]` from a null where map throws. -/
def processAssociationStep (env : Env) (self : Mdl)
    (wm : Option (List (String × Value))) (fetchAssociations : Option (List String))
    (select : Option (List String)) (depth : Nat) (a : Prp)
    (p : Query × Option Query) : Except JsErr (Query × Option Query) :=
  if fetchedAssociation fetchAssociations a then
    (addAssociation env self p.1 [a] select depth).map (fun sq => (sq, p.2))
  else
    match wm with
    | none => .error (.typeErr "Cannot read properties of undefined (whereMap)")
    | some m =>
      if (lookupW m a.name).elim false Value.truthy then
        match p.2 with
        | some w => (addJoinStatement env self w [a]).map (fun w' => (p.1, some w'))
        | none => (addJoinStatement env self p.1 [a]).map (fun sq => (sq, p.2))
      else .ok p

def processAssociations (env : Env) (self : Mdl)
    (wm : Option (List (String × Value))) (fetchAssociations : Option (List String))
    (select : Option (List String)) (depth : Nat) :
    List Prp → Query × Option Query → Except JsErr (Query × Option Query)
  | [], p => .ok p
  | a :: rest, p =>
    (processAssociationStep env self wm fetchAssociations select depth a p).bind
      (processAssociations env self wm fetchAssociations select depth rest)

/-- The implicit-sort condition of `createSelectStatement` (source line 601):
the model has at least one association, the sort argument is falsy, the model
has an `id` property, and the group argument is falsy. -/
def implicitSortCond (env : Env) (self : Mdl) (sort : Option SortSpec)
    (group : Option GroupArg) : Bool :=
  !self.getAssociationProps.isEmpty && !sortTruthy sort &&
    (getPropertyJs env self "id").isSome && !groupTruthy group

/-- The sort actually applied by `createSelectStatement` (source lines
600-606): `{id: 'asc'}` when the implicit-sort condition holds, else the
caller's sort argument unchanged. -/
def effectiveSort (env : Env) (self : Mdl) (sort : Option SortSpec)
    (group : Option GroupArg) : Option SortSpec :=
  if implicitSortCond env self sort group then
    some (SortSpec.map [("id", SortVal.s "asc")])
  else sort

/-- The `usingCTE` condition of `createSelectStatement` (source line 525):
`limit || skip` on the numeric arguments. -/
def usingCTECond (limit skip : Nat) : Bool :=
  limit ≠ 0 || skip ≠ 0

/-- The pagination condition of `createUpdateStatement` and
`createDeleteStatement` (source lines 991 and 1017): any of limit, skip or
sort is truthy and the model has an `id` property. -/
def mutationPaginated (env : Env) (self : Mdl) (limit skip : Nat)
    (sort : Option SortSpec) : Bool :=
  (limit ≠ 0 || skip ≠ 0 || sortTruthy sort) && (getPropertyJs env self "id").isSome

/-- The inner CTE query construction of `createSelectStatement` (source lines
528-554): for a truthy limit or skip, `knex.select(name + '.*').from(name)`
extended with the sqlish sort-preprocessing columns; otherwise no inner
query. -/
def buildWithQuery (env : Env) (self : Mdl) (sort : Option SortSpec)
    (w0 : Option Query) : Except JsErr (Option Query) :=
  match w0 with
  | some w => (cteSortColumns env self sort).map
      (fun cs => some { w with columns := w.columns ++ cs })
  | none => .ok none

/-- The guarded `if(whereMap) this.addWhereClause(query, whereMap)` call of
`createSelectStatement` (source lines 637-639 and 657-659). -/
def addWhereClauseOpt (env : Env) (self : Mdl) (q : Query)
    (wm : Option (List (String × Value))) : Except JsErr Query :=
  if wm.isSome then addWhereClause env self q wm else .ok q

/-- The tail of `createSelectStatement` (source lines 608-669): with a CTE
inner query present, that inner query receives the sort, the guarded where
clause, limit, offset and (dead code, line 649-652) an implicit id order;
without one, the main query receives the guarded where clause, limit and
offset directly. -/
def finishSelect (env : Env) (self : Mdl)
    (whereMap : Option (List (String × Value))) (limit skip : Nat)
    (sort1 : Option SortSpec) (group : Option GroupArg)
    (selectQuery4 : Query) : Option Query → Except JsErr Statement
  | some w0 => do
    let w1 ← addSortClause env self w0 sort1
    let w2 ← addWhereClauseOpt env self w1 whereMap
    let w3 := addLimitClause w2 limit
    let w4 := addOffsetClause w3 skip
    let w5 := if implicitSortCond env self sort1 group then
        { w4 with orderBys := w4.orderBys ++ [("id", "asc")] }
      else w4
    pure (Statement.cte self.tableName w5 selectQuery4)
  | none => do
    let sq ← addWhereClauseOpt env self selectQuery4 whereMap
    pure (Statement.plain (addOffsetClause (addLimitClause sq limit) skip))

/-- `Table#createSelectStatement` (source lines 520-671). -/
def createSelectStatement (env : Env) (self : Mdl)
    (whereMap : Option (List (String × Value))) (limit skip : Nat)
    (sort : Option SortSpec) (group : Option GroupArg)
    (select : Option (List String)) (fetchAssociations : Option (List String))
    (autoFetchDepth : Nat) : Except JsErr Statement := do
  let selectQuery0 : Query := { fromTable := self.tableName }
  let withQuery0 : Option Query :=
    if usingCTECond limit skip then
      some { fromTable := self.tableName, columns := [self.tableName ++ ".*"] }
    else none
  let withQuery1 ← buildWithQuery env self sort withQuery0
  let bcols ← baseColumns env self group select
  let selectQuery1 := { selectQuery0 with columns := selectQuery0.columns ++ bcols }
  let pq ← processAssociations env self whereMap fetchAssociations select autoFetchDepth
    self.getAssociationProps (selectQuery1, withQuery1)
  let sort1 := effectiveSort env self sort group
  let selectQuery3 ← addSortClause env self pq.1 sort1
  let gcols ← groupColumns env self group
  let selectQuery4 := { selectQuery3 with groupBys := selectQuery3.groupBys ++ gcols }
  finishSelect env self whereMap limit skip sort1 group selectQuery4 pq.2

/-- The full-text `$in` subquery value `createSearchStatement` writes into
the caller's where map under the reserved key `id` (source lines 513-515). -/
def searchIdValue (self : Mdl) (searchText : String) : Value :=
  .vObj [("$in", .vBuilder ["id"] self.tableName "_search @@ to_tsquery(?)" [searchText])]

/-- `Table#createSearchStatement` (source lines 511-518): `where || {}` is
taken (so a null argument gets a fresh map), the reserved key `id` is
assigned the full-text `$in` subquery — overwriting any caller-provided `id`
condition, on the caller's own object — and the result is delegated to
`createSelectStatement`. -/
def createSearchStatement (env : Env) (self : Mdl) (searchText : String)
    (whereArg : Option (List (String × Value))) (limit skip : Nat)
    (sort : Option SortSpec) (group : Option GroupArg)
    (select : Option (List String)) (fetchAssociations : Option (List String))
    (autoFetchDepth : Nat) : Except JsErr Statement :=
  let whereMap := whereArg.getD []
  let whereMap2 := setKeyJs whereMap "id" (searchIdValue self searchText)
  createSelectStatement env self (some whereMap2) limit skip sort group select
    fetchAssociations autoFetchDepth

/-- `Table#createDeleteStatement` (source lines 986-1009). -/
def createDeleteStatement (env : Env) (self : Mdl)
    (whereMap : Option (List (String × Value))) (limit skip : Nat)
    (sort : Option SortSpec) : Except JsErr Statement := do
  let deleteQuery0 : Query := { fromTable := self.tableName, isDelete := true }
  let deleteQuery1 ← addReturningClause env self deleteQuery0
  if mutationPaginated env self limit skip sort then do
    let w0 : Query := { fromTable := self.tableName }
    let w1 ← addWhereClause env self w0 whereMap
    let w2 ← addSortClause env self w1 sort
    let w3 := addLimitClause w2 limit
    let w4 := addOffsetClause w3 skip
    let d := { deleteQuery1 with
      wheres := deleteQuery1.wheres ++ [Wc.wRaw "\"id\" in (select \"id\" from \"t\")" []] }
    pure (Statement.cte "t" w4 d)
  else do
    let d ← addWhereClause env self deleteQuery1 whereMap
    pure (Statement.plain d)

/-- `Table#createUpdateStatement` (source lines 1011-1032). -/
def createUpdateStatement (env : Env) (self : Mdl)
    (whereMap : Option (List (String × Value)))
    (setMap : Option (List (String × Value))) (limit skip : Nat)
    (sort : Option SortSpec) : Except JsErr Statement := do
  let q0 : Query := { fromTable := self.tableName }
  let q1 ← addSetClause env self q0 setMap
  let q2 ← addReturningClause env self q1
  if mutationPaginated env self limit skip sort then do
    let w0 : Query := { fromTable := self.tableName }
    let w1 ← addSortClause env self w0 sort
    let w2 := addLimitClause w1 limit
    let w3 := addOffsetClause w2 skip
    let w4 ← addWhereClause env self w3 whereMap
    let u := { q2 with
      wheres := q2.wheres ++ [Wc.wRaw "\"id\" in (select \"id\" from \"t\")" []] }
    pure (Statement.cte "t" w4 u)
  else do
    let u ← addWhereClause env self q2 whereMap
    pure (Statement.plain u)

/-- The ALTER TABLE clause lines of `Table#alterStatement` (source lines
212-227), including the `changed` lines whose `SET` tail reads
`clauses.splice(1)`. -/
def alterColumns (added removed changed : List Prp) : List String :=
  (added.filter (fun p => p.allowed)).map (fun p =>
    "\t ADD COLUMN " ++ quote p.columnName ++ " " ++ String.intercalate " " p.clauses)
  ++ (removed.filter (fun p => p.allowed)).map (fun p =>
    "\t DROP COLUMN " ++ quote p.columnName)
  ++ (changed.filter (fun p => p.allowed)).map (fun p =>
    "\t ALTER COLUMN " ++ quote p.columnName ++ " TYPE " ++ p.clauses.headD "undefined" ++
      " SET " ++ String.intercalate " " (p.clauses.drop 1))

/-- `Table#alterStatement` (source lines 209-233).  `Array.prototype.splice`
mutates its receiver, so the call returns both the statement text and the
post-call state of the three property lists: every allowed property of the
`changed` set retains only the first element of its `clauses` list. -/
def alterStatement (self : Mdl) (added removed changed : List Prp) :
    String × List Prp × List Prp × List Prp :=
  let stmt := "ALTER TABLE " ++ quote self.tableName ++ "\n" ++
    String.intercalate ",\n" (alterColumns added removed changed) ++ "\n;"
  let changedAfter := changed.map (fun p =>
    if p.allowed then { p with clauses := p.clauses.take 1 } else p)
  (stmt, added, removed, changedAfter)

/-! ## Projections and derived descriptions used by the theorems -/

/-- The inner (WITH-bound) query of a successfully built CTE statement. -/
def innerQ : Except JsErr Statement → Option Query
  | .ok (.cte _ w _) => some w
  | _ => none

/-- The main query of a successfully built statement (the plain query, or the
outer query of a CTE). -/
def mainQ : Except JsErr Statement → Option Query
  | .ok (.plain q) => some q
  | .ok (.cte _ _ q) => some q
  | _ => none

/-- The CTE binding name of a successfully built CTE statement. -/
def cteName : Except JsErr Statement → Option String
  | .ok (.cte n _ _) => some n
  | _ => none

/-- Whether statement construction succeeded with a single plain query. -/
def isPlainOk : Except JsErr Statement → Bool
  | .ok (.plain _) => true
  | _ => false

/-- The WHERE conditions `createSelectStatement` applies for its (guarded)
where-map argument: none for a null map. -/
def whereConds (env : Env) (self : Mdl) (wm : Option (List (String × Value))) :
    Except JsErr (List Wc) :=
  match wm with
  | some m => whereEntries env self m
  | none => .ok []

/-- The WHERE conditions of the unguarded `addWhereClause` call sites
(UPDATE/DELETE): a null map throws. -/
def whereCondsJs (env : Env) (self : Mdl) (wm : Option (List (String × Value))) :
    Except JsErr (List Wc) :=
  match wm with
  | some m => whereEntries env self m
  | none => .error (.typeErr "Cannot convert undefined or null to object")

/-- Whether an association of the processed list sends a join into the inner
CTE query: it is not fetched and the where map binds its name to a truthy
value. -/
def joinsWith (fetchAssociations : Option (List String))
    (wm : Option (List (String × Value))) (a : Prp) : Bool :=
  !fetchedAssociation fetchAssociations a &&
    (wm.elim false (fun m => (lookupW m a.name).elim false Value.truthy))

/-- Does the where map bind (to a truthy value) the name of an association
that is not part of the fetch graph?  Exactly these associations are joined
into the inner CTE query by `processAssociations`. -/
def whereNamesAssoc (env : Env) (self : Mdl) (fetchAssociations : Option (List String))
    (wm : Option (List (String × Value))) : Bool :=
  self.getAssociationProps.any (fun a => joinsWith fetchAssociations wm a)

/-! ## Fixtures: small concrete model registries -/

/-- Fixture: the auto-fetched `belongsTo` association `a` of `User`. -/
def userA : Prp :=
  { name := "a", columnName := "a_id", modelName := "User", association := true,
    belongsTo := true, autoFetch := true, associatedModelName := some "Profile" }

/-- Fixture: the non-fetched `hasMany` association `b` of `User`. -/
def userB : Prp :=
  { name := "b", columnName := "b", modelName := "User", allowed := false,
    association := true, hasMany := some "user", associatedModelName := some "Post" }

/-- Fixture: the `User` model — `id` and `name` columns, an auto-fetched
`belongsTo` association `a` to `Profile`, and a non-fetched `hasMany`
association `b` to `Post`. -/
def userModel : Mdl :=
  { name := "User", tableName := "users",
    properties := [
      { name := "id", columnName := "id", modelName := "User", clauses := ["SERIAL", "PRIMARY KEY"] },
      { name := "name", columnName := "name", modelName := "User", clauses := ["TEXT"] },
      userA, userB] }

/-- Fixture: the `Profile` model, no associations. -/
def profileModel : Mdl :=
  { name := "Profile", tableName := "profiles",
    properties := [
      { name := "id", columnName := "id", modelName := "Profile" },
      { name := "bio", columnName := "bio", modelName := "Profile" }] }

/-- Fixture: the `Post` model with the `user` foreign-key property that the
association `b` joins on. -/
def postModel : Mdl :=
  { name := "Post", tableName := "posts",
    properties := [
      { name := "id", columnName := "id", modelName := "Post" },
      { name := "user", columnName := "user_id", modelName := "Post" }] }

/-- Fixture registry for the `User` family. -/
def envA : Env := [userModel, profileModel, postModel]

/-- Fixture: the `Shop` model — an `id` column and one `hasMany` association
`c` that is neither auto-fetch nor ever explicitly requested. -/
def shopModel : Mdl :=
  { name := "Shop", tableName := "shops",
    properties := [
      { name := "id", columnName := "id", modelName := "Shop" },
      { name := "c", columnName := "c", modelName := "Shop", allowed := false,
        association := true, hasMany := some "shop", associatedModelName := some "Item" }] }

/-- Fixture: the `Item` model. -/
def itemModel : Mdl :=
  { name := "Item", tableName := "items",
    properties := [
      { name := "id", columnName := "id", modelName := "Item" },
      { name := "shop", columnName := "shop_id", modelName := "Item" }] }

/-- Fixture registry for the `Shop` family. -/
def envB : Env := [shopModel, itemModel]

/-- Fixture: the `members` many-to-many association of `Team`, declared
`required`. -/
def teamMembers : Prp :=
  { name := "members", columnName := "members", modelName := "Team", allowed := false,
    association := true, required := true, through := some "Membership",
    associatedModelName := some "Person", relationshipVia := some ("Person", "teams"),
    throughPropertyName := some "team" }

/-- Fixture: the `Team` model with a required many-to-many association to
`Person` through `Membership`. -/
def teamModel : Mdl :=
  { name := "Team", tableName := "teams",
    properties := [
      { name := "id", columnName := "id", modelName := "Team" },
      teamMembers] }

/-- Fixture: the `Person` model, the other side of the many-to-many. -/
def personModel : Mdl :=
  { name := "Person", tableName := "people",
    properties := [
      { name := "id", columnName := "id", modelName := "Person" },
      { name := "teams", columnName := "teams", modelName := "Person", allowed := false,
        association := true, through := some "Membership",
        associatedModelName := some "Team", relationshipVia := some ("Team", "members"),
        throughPropertyName := some "person" }] }

/-- Fixture: the `Membership` through model. -/
def membershipModel : Mdl :=
  { name := "Membership", tableName := "memberships",
    properties := [
      { name := "id", columnName := "id", modelName := "Membership" },
      { name := "team", columnName := "team_id", modelName := "Membership",
        referenceName := some "Team" },
      { name := "person", columnName := "person_id", modelName := "Membership",
        referenceName := some "Person" }] }

/-- Fixture registry for the `Team` family. -/
def envC : Env := [teamModel, personModel, membershipModel]

/-- Fixture: the `a_b` association of `Root` (an association name that itself
contains an underscore). -/
def rootAB : Prp :=
  { name := "a_b", columnName := "a_b_id", modelName := "Root", association := true,
    belongsTo := true, associatedModelName := some "X" }

/-- Fixture: the `a` association of `Root`. -/
def rootA : Prp :=
  { name := "a", columnName := "a_id", modelName := "Root", association := true,
    belongsTo := true, associatedModelName := some "Y" }

/-- Fixture: the `b` association of `Y`. -/
def yB : Prp :=
  { name := "b", columnName := "b_id", modelName := "Y", association := true,
    belongsTo := true, associatedModelName := some "X" }

/-- Fixture: the `Root` model whose association chains `[a_b]` and `[a, b]`
collide on the alias `roots_a_b`. -/
def rootModel : Mdl :=
  { name := "Root", tableName := "roots",
    properties := [
      { name := "id", columnName := "id", modelName := "Root" },
      rootAB, rootA] }

/-- Fixture: the `X` model. -/
def xModel : Mdl :=
  { name := "X", tableName := "xs",
    properties := [{ name := "id", columnName := "id", modelName := "X" }] }

/-- Fixture: the `Y` model. -/
def yModel : Mdl :=
  { name := "Y", tableName := "ys",
    properties := [
      { name := "id", columnName := "id", modelName := "Y" },
      yB] }

/-- Fixture registry for the `Root` family. -/
def envR : Env := [rootModel, xModel, yModel]

/-! ## General lemmas about the embedding -/

theorem exceptBind_ok {α β : Type} {e : Except JsErr α} {f : α → Except JsErr β} {b : β}
    (h : e.bind f = .ok b) : ∃ a, e = .ok a ∧ f a = .ok b := by
  cases e with
  | ok a => exact ⟨a, rfl, h⟩
  | error e => simp [Except.bind] at h

theorem exceptMap_ok {α β : Type} {e : Except JsErr α} {f : α → β} {b : β}
    (h : e.map f = .ok b) : ∃ a, e = .ok a ∧ f a = b := by
  cases e with
  | ok a =>
    refine ⟨a, rfl, ?_⟩
    simpa [Except.map] using h
  | error e => simp [Except.map] at h

theorem addSortClause_ok {env : Env} {self : Mdl} {q : Query} {sort : Option SortSpec}
    {q' : Query} (h : addSortClause env self q sort = .ok q') :
    ∃ es, sortConds env self sort = .ok es ∧ q' = { q with orderBys := q.orderBys ++ es } := by
  unfold addSortClause at h
  obtain ⟨es, h1, h2⟩ := exceptMap_ok h
  exact ⟨es, h1, h2.symm⟩

theorem addWhereClause_ok {env : Env} {self : Mdl} {q : Query}
    {wm : Option (List (String × Value))} {q' : Query}
    (h : addWhereClause env self q wm = .ok q') :
    ∃ m cs, wm = some m ∧ whereEntries env self m = .ok cs ∧
      q' = { q with wheres := q.wheres ++ cs } := by
  unfold addWhereClause at h
  match wm, h with
  | some m, h =>
    obtain ⟨cs, h1, h2⟩ := exceptMap_ok h
    exact ⟨m, cs, rfl, h1, h2.symm⟩

theorem addWhereClauseOpt_ok {env : Env} {self : Mdl} {q : Query}
    {wm : Option (List (String × Value))} {q' : Query}
    (h : addWhereClauseOpt env self q wm = .ok q') :
    ∃ wcs, whereConds env self wm = .ok wcs ∧
      q' = { q with wheres := q.wheres ++ wcs } := by
  unfold addWhereClauseOpt at h
  match hwm : wm, h with
  | some m, h =>
    simp only [Option.isSome_some, if_true] at h
    obtain ⟨m', cs, hm', hcs, he⟩ := addWhereClause_ok h
    cases hm'
    exact ⟨cs, hcs, he⟩
  | none, h =>
    simp only [Option.isSome_none, Bool.false_eq_true, if_false] at h
    cases h
    exact ⟨[], rfl, by simp⟩

theorem addReturningClause_ok {env : Env} {self : Mdl} {q : Query} {q' : Query}
    (h : addReturningClause env self q = .ok q') :
    ∃ r, returningList env self = .ok r ∧ q' = { q with returning := r } := by
  unfold addReturningClause at h
  obtain ⟨r, h1, h2⟩ := exceptMap_ok h
  exact ⟨r, h1, h2.symm⟩

theorem addJoinStatement_ok {env : Env} {self : Mdl} {q : Query} {chain : List Prp}
    {q' : Query} (h : addJoinStatement env self q chain = .ok q') :
    ∃ js, joinEntries env self chain = .ok js ∧ q' = { q with joins := q.joins ++ js } := by
  unfold addJoinStatement at h
  obtain ⟨js, h1, h2⟩ := exceptMap_ok h
  exact ⟨js, h1, h2.symm⟩

theorem addAssociation_ok {env : Env} {self : Mdl} {q : Query} {chain : List Prp}
    {select : Option (List String)} {depth : Nat} {q' : Query}
    (h : addAssociation env self q chain select depth = .ok q') :
    ∃ a, associationAdditions env self chain select depth = .ok a ∧
      q' = { q with columns := q.columns ++ a.1, joins := q.joins ++ a.2 } := by
  unfold addAssociation at h
  obtain ⟨a, h1, h2⟩ := exceptMap_ok h
  exact ⟨a, h1, h2.symm⟩

theorem addSetClause_ok {env : Env} {self : Mdl} {q : Query}
    {sm : Option (List (String × Value))} {q' : Query}
    (h : addSetClause env self q sm = .ok q') :
    (sm = none ∧ q' = q) ∨
    ∃ m r, sm = some m ∧ setResult env self m = .ok r ∧
      q' = { q with updateMap := r.1,
                    increments := q.increments ++ r.2.1,
                    decrements := q.decrements ++ r.2.2 } := by
  unfold addSetClause at h
  match sm, h with
  | none, h =>
    left
    exact ⟨rfl, by simpa using h.symm⟩
  | some m, h =>
    right
    obtain ⟨r, h1, h2⟩ := exceptMap_ok h
    exact ⟨m, r, rfl, h1, h2.symm⟩

theorem processAssociations_inv {env : Env} {self : Mdl}
    {wm : Option (List (String × Value))} {f : Option (List String)}
    {sel : Option (List String)} {d : Nat} :
    ∀ (l : List Prp) (p res : Query × Option Query),
      processAssociations env self wm f sel d l p = .ok res →
      (res.1.orderBys = p.1.orderBys ∧ res.1.fromTable = p.1.fromTable ∧
        res.1.wheres = p.1.wheres ∧ res.1.groupBys = p.1.groupBys ∧
        res.1.limit = p.1.limit ∧ res.1.offset = p.1.offset) ∧
      (p.2 = none → res.2 = none) ∧
      (∀ w, p.2 = some w →
        ∃ w', res.2 = some w' ∧ w'.fromTable = w.fromTable ∧
          w'.wheres = w.wheres ∧ w'.orderBys = w.orderBys ∧
          w'.limit = w.limit ∧ w'.offset = w.offset ∧ w'.columns = w.columns ∧
          (l.all (fun a => !joinsWith f wm a) → w' = w)) := by
  intro l
  induction l with
  | nil =>
    intro p res h
    unfold processAssociations at h
    cases h
    exact ⟨⟨rfl, rfl, rfl, rfl, rfl, rfl⟩, fun h => h,
      fun w hw => ⟨w, hw, rfl, rfl, rfl, rfl, rfl, rfl, fun _ => rfl⟩⟩
  | cons a rest ih =>
    intro p res h
    unfold processAssociations at h
    obtain ⟨p', hp', hrest⟩ := exceptBind_ok h
    -- Characterize the one-step result p'.
    have hstep : (p'.1.orderBys = p.1.orderBys ∧ p'.1.fromTable = p.1.fromTable ∧
        p'.1.wheres = p.1.wheres ∧ p'.1.groupBys = p.1.groupBys ∧
        p'.1.limit = p.1.limit ∧ p'.1.offset = p.1.offset) ∧
        (p.2 = none → p'.2 = none) ∧
        (∀ w, p.2 = some w →
          ∃ w', p'.2 = some w' ∧ w'.fromTable = w.fromTable ∧
            w'.wheres = w.wheres ∧ w'.orderBys = w.orderBys ∧
            w'.limit = w.limit ∧ w'.offset = w.offset ∧ w'.columns = w.columns ∧
            (joinsWith f wm a = false → w' = w)) := by
      unfold processAssociationStep at hp'
      by_cases hf : fetchedAssociation f a
      · simp only [hf, if_pos] at hp'
        obtain ⟨sq', hsq', hq⟩ := exceptMap_ok hp'
        obtain ⟨ad, _, hq2⟩ := addAssociation_ok hsq'
        subst hq
        subst hq2
        exact ⟨⟨rfl, rfl, rfl, rfl, rfl, rfl⟩, fun h => h,
          fun w hw => ⟨w, hw, rfl, rfl, rfl, rfl, rfl, rfl, fun _ => rfl⟩⟩
      · simp only [hf, Bool.false_eq_true, if_false] at hp'
        match hwm : wm, hp' with
        | some m, hp' =>
          by_cases ht : (lookupW m a.name).elim false Value.truthy
          · simp only [ht, if_pos] at hp'
            match hp2 : p.2, hp' with
            | some w, hp' =>
              obtain ⟨w', hw', hq⟩ := exceptMap_ok hp'
              obtain ⟨js, _, hq2⟩ := addJoinStatement_ok hw'
              subst hq
              subst hq2
              refine ⟨⟨rfl, rfl, rfl, rfl, rfl, rfl⟩, by simp, ?_⟩
              intro w0 hw0
              cases hw0
              refine ⟨_, rfl, rfl, rfl, rfl, rfl, rfl, rfl, ?_⟩
              intro hjw
              exfalso
              simp only [joinsWith, hf, hwm, ht] at hjw
              exact absurd (ht.symm.trans hjw) (by simp)
            | none, hp' =>
              obtain ⟨sq', hsq', hq⟩ := exceptMap_ok hp'
              obtain ⟨js, _, hq2⟩ := addJoinStatement_ok hsq'
              subst hq
              subst hq2
              refine ⟨⟨rfl, rfl, rfl, rfl, rfl, rfl⟩, by simp, ?_⟩
              intro w0 hw0
              exact absurd hw0 (by simp)
          · simp only [ht, Bool.false_eq_true, if_false, Except.ok.injEq] at hp'
            subst hp'
            exact ⟨⟨rfl, rfl, rfl, rfl, rfl, rfl⟩, fun h => h,
              fun w hw => ⟨w, hw, rfl, rfl, rfl, rfl, rfl, rfl, fun _ => rfl⟩⟩
    -- Combine the one-step result with the induction hypothesis on the rest.
    obtain ⟨hsq, hnone, hsome⟩ := hstep
    obtain ⟨ihsq, ihnone, ihsome⟩ := ih p' res hrest
    refine ⟨?_, ?_, ?_⟩
    · exact ⟨ihsq.1.trans hsq.1, ihsq.2.1.trans hsq.2.1, ihsq.2.2.1.trans hsq.2.2.1,
        ihsq.2.2.2.1.trans hsq.2.2.2.1, ihsq.2.2.2.2.1.trans hsq.2.2.2.2.1,
        ihsq.2.2.2.2.2.trans hsq.2.2.2.2.2⟩
    · intro hp2
      exact ihnone (hnone hp2)
    · intro w hw
      obtain ⟨w', hw', f1, f2, f3, f4, f5, f6, hall⟩ := hsome w hw
      obtain ⟨w'', hw'', g1, g2, g3, g4, g5, g6, hall'⟩ := ihsome w' hw'
      refine ⟨w'', hw'', g1.trans f1, g2.trans f2, g3.trans f3, g4.trans f4,
        g5.trans f5, g6.trans f6, ?_⟩
      intro hl
      simp only [List.all_cons, Bool.and_eq_true] at hl
      have h1 := hall (by simpa using hl.1)
      subst h1
      exact hall' hl.2

theorem exceptIsOk_iff {α : Type} (e : Except JsErr α) :
    e.isOk = true ↔ ∃ a, e = .ok a := by
  cases e <;> simp [Except.isOk, Except.toBool]

theorem implicitSortCond_effective (env : Env) (self : Mdl)
    (sort : Option SortSpec) (group : Option GroupArg) :
    implicitSortCond env self (effectiveSort env self sort group) group = false := by
  unfold effectiveSort
  by_cases h : implicitSortCond env self sort group = true
  · rw [if_pos h]
    simp [implicitSortCond, sortTruthy]
  · rw [if_neg h]
    exact Bool.eq_false_iff.mpr h

/-- Full inversion of a successful `createSelectStatement` call: the where
and sort conditions it computed, the plain shape when no limit/offset was
requested, and the CTE shape — inner query against the base table carrying
the where filter, sort, limit and offset, with an empty join list whenever
the where map names no non-fetched association — when a limit or offset was
requested. -/
theorem createSelectStatement_inv {env : Env} {self : Mdl}
    {wm : Option (List (String × Value))} {limit skip : Nat}
    {sort : Option SortSpec} {group : Option GroupArg}
    {sel fetch : Option (List String)} {depth : Nat} {st : Statement}
    (h : createSelectStatement env self wm limit skip sort group sel fetch depth = .ok st) :
    ∃ wcs scs,
      whereConds env self wm = .ok wcs ∧
      sortConds env self (effectiveSort env self sort group) = .ok scs ∧
      (usingCTECond limit skip = false →
        ∃ q, st = .plain q ∧ q.fromTable = self.tableName ∧ q.orderBys = scs ∧
          q.wheres = wcs ∧ q.limit = none ∧ q.offset = none) ∧
      (usingCTECond limit skip = true →
        ∃ w q, st = .cte self.tableName w q ∧
          w.fromTable = self.tableName ∧ w.wheres = wcs ∧ w.orderBys = scs ∧
          w.limit = (if 0 < limit then some limit else none) ∧
          w.offset = (if 0 < skip then some skip else none) ∧
          (whereNamesAssoc env self fetch wm = false → w.joins = []) ∧
          q.fromTable = self.tableName ∧ q.orderBys = scs ∧
          q.limit = none ∧ q.offset = none) := by
  unfold createSelectStatement at h
  obtain ⟨w1, hw1, h⟩ := exceptBind_ok h
  obtain ⟨bc, hbc, h⟩ := exceptBind_ok h
  obtain ⟨pq, hpq, h⟩ := exceptBind_ok h
  obtain ⟨sq3, hsq3, h⟩ := exceptBind_ok h
  obtain ⟨gc, hgc, h⟩ := exceptBind_ok h
  obtain ⟨scs, hscs, hsq3e⟩ := addSortClause_ok hsq3
  have hmain := processAssociations_inv self.getAssociationProps _ pq hpq
  obtain ⟨⟨hord, hfrom, hwh, hgrp, hlim, hoff⟩, hpnone, hpsome⟩ := hmain
  cases hcte : usingCTECond limit skip with
  | false =>
    rw [hcte] at hw1
    simp only [Bool.false_eq_true, if_false] at hw1
    have hw1e : w1 = none := by
      unfold buildWithQuery at hw1
      cases hw1
      rfl
    have hpq2 : pq.2 = none := hpnone hw1e
    simp only [] at h
    rw [hpq2] at h
    simp only [finishSelect] at h
    obtain ⟨sqf, hsqf, h⟩ := exceptBind_ok h
    have hste : st = .plain (addOffsetClause (addLimitClause sqf limit) skip) := by
      cases h
      rfl
    have hlim0 : limit = 0 ∧ skip = 0 := by
      simpa [usingCTECond] using hcte
    obtain ⟨wcs, hwconds, hsqfe⟩ := addWhereClauseOpt_ok hsqf
    refine ⟨wcs, scs, hwconds, hscs, ?_, ?_⟩
    · intro _
      refine ⟨_, hste, ?_, ?_, ?_, ?_, ?_⟩ <;>
        simp [hsqfe, hsq3e, addLimitClause, addOffsetClause, hlim0.1, hlim0.2,
          hord, hfrom, hwh, hlim, hoff]
    · intro hc
      exact absurd hc (by simp)
  | true =>
    rw [hcte] at hw1
    simp only [if_true] at hw1
    unfold buildWithQuery at hw1
    obtain ⟨ccs, hccs, hw1e⟩ := exceptMap_ok hw1
    obtain ⟨wq, hwq, wfrom, wwh, word, wlim, woff, wcols, wjoins⟩ :=
      hpsome _ hw1e.symm
    simp only [] at h
    rw [hwq] at h
    simp only [finishSelect] at h
    obtain ⟨ws1, hws1, h⟩ := exceptBind_ok h
    obtain ⟨ws2, hws2, h⟩ := exceptBind_ok h
    have hdead : implicitSortCond env self (effectiveSort env self sort group) group = false :=
      implicitSortCond_effective env self sort group
    rw [hdead] at h
    simp only [Bool.false_eq_true, if_false] at h
    have hste : st = .cte self.tableName
        (addOffsetClause (addLimitClause ws2 limit) skip)
        { sq3 with groupBys := sq3.groupBys ++ gc } := by
      cases h
      rfl
    obtain ⟨scs2, hscs2, hws1e⟩ := addSortClause_ok hws1
    rw [hscs] at hscs2
    cases hscs2
    obtain ⟨wcs, hwconds, hws2e⟩ := addWhereClauseOpt_ok hws2
    refine ⟨wcs, scs, hwconds, hscs, ?_, ?_⟩
    · intro hc
      exact absurd hc (by simp)
    · intro _
      refine ⟨_, _, hste, ?_, ?_, ?_, ?_, ?_, ?_, ?_, ?_, ?_, ?_⟩
      · by_cases hl : 0 < limit <;>
          by_cases hs : 0 < skip <;>
            simp [addLimitClause, addOffsetClause, hl, hs, hws2e, hws1e, wfrom]
      · by_cases hl : 0 < limit <;>
          by_cases hs : 0 < skip <;>
            simp [addLimitClause, addOffsetClause, hl, hs, hws2e, hws1e, wwh]
      · by_cases hl : 0 < limit <;>
          by_cases hs : 0 < skip <;>
            simp [addLimitClause, addOffsetClause, hl, hs, hws2e, hws1e, word]
      · by_cases hl : 0 < limit <;>
          by_cases hs : 0 < skip <;>
            simp [addLimitClause, addOffsetClause, hl, hs, hws2e, hws1e, wlim]
      · by_cases hl : 0 < limit <;>
          by_cases hs : 0 < skip <;>
            simp [addLimitClause, addOffsetClause, hl, hs, hws2e, hws1e, woff]
      · intro hwna
        have hall : (self.getAssociationProps.all fun a => !joinsWith fetch wm a) = true := by
          rw [List.all_eq_not_any_not]
          simp only [Bool.not_not]
          rw [show (self.getAssociationProps.any fun a => joinsWith fetch wm a)
            = whereNamesAssoc env self fetch wm from rfl, hwna]
          rfl
        have hweq := wjoins hall
        rw [hweq] at hws1e
        by_cases hl : 0 < limit <;>
          by_cases hs : 0 < skip <;>
            simp [addLimitClause, addOffsetClause, hl, hs, hws2e, hws1e]
      · simp [hsq3e, hfrom]
      · simp [hsq3e, hord]
      · simp [hsq3e, hlim]
      · simp [hsq3e, hoff]

theorem lookupW_overwrite (m : List (String × Value)) (k : String) (v : Value)
    (h : m.any (fun e => e.1 = k) = true) :
    lookupW (m.map (fun e => if e.1 = k then (k, v) else e)) k = some v := by
  induction m with
  | nil => simp at h
  | cons e rest ih =>
    by_cases he : e.1 = k
    · simp [lookupW, he]
    · have h' : rest.any (fun e => e.1 = k) = true := by
        simpa [he] using h
      have := ih h'
      simp only [lookupW] at this ⊢
      simpa [he] using this

theorem lookupW_append_new (m : List (String × Value)) (k : String) (v : Value)
    (h : m.any (fun e => e.1 = k) = false) :
    lookupW (m ++ [(k, v)]) k = some v := by
  induction m with
  | nil => simp [lookupW]
  | cons e rest ih =>
    simp only [List.any_cons, Bool.or_eq_false_iff] at h
    have he : ¬(e.1 = k) := by simpa using h.1
    have := ih h.2
    simp only [lookupW] at this ⊢
    simpa [he] using this

theorem lookupW_setKeyJs (m : List (String × Value)) (k : String) (v : Value) :
    lookupW (setKeyJs m k v) k = some v := by
  unfold setKeyJs
  by_cases h : m.any (fun e => e.1 = k)
  · simpa [h] using lookupW_overwrite m k v h
  · have h' : m.any (fun e => e.1 = k) = false := Bool.eq_false_iff.mpr h
    rw [h']
    simpa using lookupW_append_new m k v h'

/-! ## Claim theorems -/

/-- C10: for every call to `createSearchStatement` with a non-null where map,
the caller-supplied where map is mutated: the reserved key `id` is written
into it (overwriting any `id` condition the caller provided) with an `$in`
subquery over `to_tsquery` matches, before delegating to
`createSelectStatement`.  (In the functional embedding the JavaScript
in-place assignment `whereMap.id = ...` is `setKeyJs`; since the source
aliases the caller's object, the updated map is the caller's map.) -/
theorem c10_search_overwrites_id :
    ∀ (env : Env) (self : Mdl) (searchText : String) (w : List (String × Value))
      (limit skip : Nat) (sort : Option SortSpec) (group : Option GroupArg)
      (select fetch : Option (List String)) (depth : Nat),
      createSearchStatement env self searchText (some w) limit skip sort group
          select fetch depth
        = createSelectStatement env self
            (some (setKeyJs w "id" (searchIdValue self searchText)))
            limit skip sort group select fetch depth
      ∧ lookupW (setKeyJs w "id" (searchIdValue self searchText)) "id"
          = some (searchIdValue self searchText) :=
  fun _ self searchText w _ _ _ _ _ _ _ =>
    ⟨rfl, lookupW_setKeyJs w "id" (searchIdValue self searchText)⟩

/-- Fixture: a changed property with a two-keyword clause list, the failing
input of C9. -/
def scoreChanged : Prp :=
  { name := "score", columnName := "score", modelName := "Shop",
    clauses := ["INTEGER", "NOT NULL"] }

/-- C9: `alterStatement` is claimed to leave the properties of the
added/removed/changed sets unchanged, so that a second identical call yields
the same statement.  The code disproves this: `property.clauses.splice(1)`
mutates the clauses list of every allowed changed property down to its first
element, so the first call produces `... TYPE INTEGER SET NOT NULL` but
leaves `clauses = ["INTEGER"]`, and the repeat call produces a different
(truncated) statement. -/
theorem c9_alter_splice_mutates_clauses :
    (alterStatement shopModel [] [] [scoreChanged]).1
      = "ALTER TABLE \"shops\"\n\t ALTER COLUMN \"score\" TYPE INTEGER SET NOT NULL\n;"
    ∧ (alterStatement shopModel [] [] [scoreChanged]).2.2.2
      = [{ scoreChanged with clauses := ["INTEGER"] }]
    ∧ (alterStatement shopModel [] [] [scoreChanged]).2.2.2 ≠ [scoreChanged]
    ∧ (alterStatement shopModel [] []
        (alterStatement shopModel [] [] [scoreChanged]).2.2.2).1
      ≠ (alterStatement shopModel [] [] [scoreChanged]).1 := by
  refine ⟨rfl, rfl, by decide, by decide⟩

/-- C7 (amended): each recognized operator key maps to its SQL operator
(`$is` to `=`, `$gte` to `>=`, `$gt` to `>`, `$lt` to `<`, `$lte` to `<=`,
`$not` to `!=`, `$like`/`$ilike`/`$regex` to their keywords); `$not` with an
array produces NOT IN; `$is`/`$not` with null produce `IS null`/`IS NOT
null`; the comparison and pattern operators with null raise an explicit
error; an unrecognized operator key raises an explicit error naming the key;
`$or` with an array produces a disjunction of equalities and with a non-array
fails with a `TypeError`; and — contrary to the claim — `$in` paired with any
value, null included, is passed to the IN builder without an error. -/
theorem c7_operator_object_dispatch :
    (∀ (col : String) (v : Value), v ≠ Value.vNull →
      valueObjEntry col "$gte" v = .ok [.wOp col ">=" v]
      ∧ valueObjEntry col "$gt" v = .ok [.wOp col ">" v]
      ∧ valueObjEntry col "$lt" v = .ok [.wOp col "<" v]
      ∧ valueObjEntry col "$lte" v = .ok [.wOp col "<=" v]
      ∧ valueObjEntry col "$like" v = .ok [.wOp col "LIKE" v]
      ∧ valueObjEntry col "$ilike" v = .ok [.wOp col "ILIKE" v]
      ∧ valueObjEntry col "$regex" v = .ok [.wOp col "~" v]
      ∧ valueObjEntry col "$is" v = .ok [.wOp col "=" v])
    ∧ (∀ (col : String) (v : Value), v ≠ Value.vNull → (∀ es, v ≠ Value.vArr es) →
      valueObjEntry col "$not" v = .ok [.wOp col "!=" v])
    ∧ (∀ (col : String) (es : List Value),
      valueObjEntry col "$not" (Value.vArr es) = .ok [.wNotIn col (es.map mapToQueryValue)])
    ∧ (∀ col : String,
      valueObjEntry col "$is" Value.vNull = .ok [.wRaw (col ++ " IS null") []]
      ∧ valueObjEntry col "$not" Value.vNull = .ok [.wRaw (col ++ " IS NOT null") []])
    ∧ (∀ (col : String) (k : String), k ∈ ["$gte", "$gt", "$lt", "$lte", "$like", "$ilike", "$regex"] →
      valueObjEntry col k Value.vNull
        = .error (.err ("Cannot use transformer `" ++ k ++ "` with NULL value.")))
    ∧ (∀ (col : String) (vs : List Value),
      valueObjEntry col "$or" (Value.vArr vs) = .ok [.wOrVals col vs])
    ∧ (∀ (col : String) (v : Value), (∀ es, v ≠ Value.vArr es) →
      ∃ msg, valueObjEntry col "$or" v = .error (.typeErr msg))
    ∧ (∀ (col : String) (v : Value), valueObjEntry col "$in" v = .ok [.wIn col v])
    ∧ (∀ (col k : String) (v : Value), WHERE_TRANSFORMER k = none →
      valueObjEntry col k v = .error (.err ("Invalid transformer `" ++ k ++ "`.")))
    ∧ (∀ (col k : String) (v : Value),
      valueEntries col (Value.vObj [(k, v)]) none = valueObjEntry col k v) := by
  refine ⟨?_, ?_, ?_, ?_, ?_, ?_, ?_, ?_, ?_, ?_⟩
  · intro col v hv
    refine ⟨?_, ?_, ?_, ?_, ?_, ?_, ?_, ?_⟩ <;>
      (cases v; case vNull => exact absurd rfl hv
       all_goals rfl)
  · intro col v hv ha
    cases v
    case vNull => exact absurd rfl hv
    case vArr es => exact absurd rfl (ha es)
    all_goals rfl
  · intro col es
    rfl
  · intro col
    exact ⟨rfl, rfl⟩
  · intro col k hk
    fin_cases hk <;> rfl
  · intro col vs
    rfl
  · intro col v ha
    cases v
    case vArr es => exact absurd rfl (ha es)
    all_goals exact ⟨_, rfl⟩
  · intro col v
    cases v <;> rfl
  · intro col k v hk
    cases v <;> simp [valueObjEntry, hk]
  · intro col k v
    cases hv : valueObjEntry col k v <;>
      simp [valueEntries, valueSingle, valueSingleCore, hv, List.foldlM]

/-- C7 counterexample: `$in` has no NULL-safe form by the code's own
criterion (its transformer list is empty), yet pairing it with a null value
produces an IN condition instead of the explicit error the claim requires. -/
theorem c7_counterexample_in_null :
    WHERE_TRANSFORMER "$in" = some []
    ∧ valueEntries "score" (Value.vObj [("$in", Value.vNull)]) none
        = .ok [.wIn "score" Value.vNull] :=
  ⟨rfl, rfl⟩

theorem joinBelongsToOrRest_kind {association : Prp} {referenceModel : Mdl}
    {previousAlias aliasName : String} {joinType : JoinType} {js : List Join}
    (h : joinEntries.joinBelongsToOrRest association referenceModel previousAlias
      aliasName joinType = .ok js) :
    ∀ j ∈ js, j.kind = joinType := by
  unfold joinEntries.joinBelongsToOrRest at h
  split at h
  · cases h; intro j hj; simp at hj; subst hj; rfl
  · split at h
    · cases h
    · cases h; intro j hj; simp at hj

theorem joinNonHasOne_kind {env : Env} {self : Mdl} {association : Prp}
    {referenceModel : Mdl} {previousAlias aliasName : String} {joinType : JoinType}
    {js : List Join}
    (h : joinEntries.joinNonHasOne env self association referenceModel previousAlias
      aliasName joinType = .ok js) :
    ∀ j ∈ js, j.kind = joinType := by
  unfold joinEntries.joinNonHasOne at h
  split at h
  · rename_i hasManyName
    split at h
    · split at h
      · cases h
      · cases h; intro j hj; simp at hj; subst hj; rfl
    · exact joinBelongsToOrRest_kind h
  · exact joinBelongsToOrRest_kind h

/-- C5 (amended): the join emitted by `addJoinStatement` is an inner join
when the association is declared required and a left outer join otherwise for
`belongsTo`, `hasOne` and `hasMany` associations; both joins of a
many-to-many (through-table) association, however, are always left outer
joins, regardless of the `required` flag. -/
theorem c5_join_types :
    (∀ (env : Env) (self : Mdl) (chain : List Prp) (a : Prp) (js : List Join),
      joinEntries env self chain = .ok js → chain.getLast? = some a →
      a.isManyToMany = false →
      ∀ j ∈ js, j.kind = (if a.required then JoinType.inner else JoinType.leftOuter))
    ∧ (∀ (env : Env) (self : Mdl) (chain : List Prp) (a : Prp) (js : List Join),
      joinEntries env self chain = .ok js → chain.getLast? = some a →
      a.isManyToMany = true →
      ∀ j ∈ js, j.kind = JoinType.leftOuter) := by
  constructor
  · intro env self chain a js h hlast hm2m
    unfold joinEntries at h
    rw [hlast] at h
    simp only [hm2m, Bool.false_eq_true, if_false] at h
    split at h
    · cases h
    · split at h
      · rename_i hasOneName
        split at h
        · split at h
          · cases h
          · cases h; intro j hj; simp at hj; subst hj; rfl
        · exact joinNonHasOne_kind h
      · exact joinNonHasOne_kind h
  · intro env self chain a js h hlast hm2m
    unfold joinEntries at h
    rw [hlast] at h
    simp only [hm2m, if_true] at h
    split at h
    · cases h
    · split at h
      · cases h
      · split at h
        · split at h
          · cases h
          · cases h
        · split at h
          · cases h
          · cases h
            intro j hj
            simp only [List.mem_cons, List.mem_singleton] at hj
            rcases hj with rfl | rfl | hj
            · rfl
            · rfl
            · simp at hj

/-- C5 counterexample: the fixture association `members` is a many-to-many
declared `required`, yet both emitted joins are left outer joins. -/
theorem c5_counterexample_required_m2m :
    teamMembers.required = true
    ∧ teamMembers.isManyToMany = true
    ∧ (joinEntries envC teamModel [teamMembers]).map (fun js => js.map Join.kind)
        = .ok [JoinType.leftOuter, JoinType.leftOuter] :=
  ⟨rfl, rfl, rfl⟩

/-- C5 witness: the join-type rule applied to the concrete non-fetched
`hasMany` association `b` of the `User` fixture. -/
theorem c5_witness :
    (Join.mk "posts as users_b" "users.id" "users_b.user_id" JoinType.leftOuter).kind
      = (if userB.required then JoinType.inner else JoinType.leftOuter) :=
  c5_join_types.1 envA userModel [userB] userB
    [Join.mk "posts as users_b" "users.id" "users_b.user_id" JoinType.leftOuter]
    rfl rfl rfl _ (by simp)

/-- C7 witness: the `$gte` operator applied to a concrete non-null value. -/
theorem c7_witness :
    valueObjEntry "score" "$gte" (Value.vInt 3) = .ok [.wOp "score" ">=" (Value.vInt 3)] :=
  (c7_operator_object_dispatch.1 "score" (Value.vInt 3)
    (fun h => Value.noConfusion h)).1

/-- C8: a setMap entry on a storable property whose value is `{$inc: n}` or
`{$decr: n}` emits an atomic column increment/decrement and contributes no
assignment to the update map; any other object-shaped directive key raises an
explicit error naming the directive; and at the statement level an
unpaginated UPDATE whose setMap is a single `$inc` directive carries exactly
the atomic increment and an empty update map. -/
theorem c8_set_directives :
    (∀ (env : Env) (self : Mdl) (k : String) (v : Value) (p : Prp),
      getPropertyJs env self k = some p → p.allowed = true →
      setEntry env self k (.vObj [("$inc", v)]) = .ok ([], [(p.columnName, v)], [])
      ∧ setEntry env self k (.vObj [("$decr", v)]) = .ok ([], [], [(p.columnName, v)]))
    ∧ (∀ (env : Env) (self : Mdl) (k d : String) (v : Value) (p : Prp),
      getPropertyJs env self k = some p → p.allowed = true →
      d ≠ "$inc" → d ≠ "$decr" →
      setEntry env self k (.vObj [(d, v)])
        = .error (.err ("Invalid transformer `" ++ d ++ "`.")))
    ∧ (∀ (env : Env) (self : Mdl) (wm : Option (List (String × Value)))
        (k : String) (v : Value) (p : Prp),
      getPropertyJs env self k = some p → p.allowed = true →
      (createUpdateStatement env self wm (some [(k, .vObj [("$inc", v)])]) 0 0 none).isOk
        = true →
      isPlainOk (createUpdateStatement env self wm (some [(k, .vObj [("$inc", v)])]) 0 0 none)
        = true
      ∧ (mainQ (createUpdateStatement env self wm
            (some [(k, .vObj [("$inc", v)])]) 0 0 none)).map Query.increments
          = some [(p.columnName, v)]
      ∧ (mainQ (createUpdateStatement env self wm
            (some [(k, .vObj [("$inc", v)])]) 0 0 none)).map Query.updateMap
          = some []) := by
  have hinc : ∀ (env : Env) (self : Mdl) (k : String) (v : Value) (p : Prp),
      getPropertyJs env self k = some p → p.allowed = true →
      setEntry env self k (.vObj [("$inc", v)]) = .ok ([], [(p.columnName, v)], []) := by
    intro env self k v p hp hallow
    unfold setEntry
    rw [hp]
    simp [hallow, List.foldlM]
  refine ⟨?_, ?_, ?_⟩
  · intro env self k v p hp hallow
    refine ⟨hinc env self k v p hp hallow, ?_⟩
    unfold setEntry
    rw [hp]
    simp [hallow, List.foldlM]
  · intro env self k d v p hp hallow hd1 hd2
    unfold setEntry
    rw [hp]
    simp [hallow, List.foldlM, hd1, hd2]
  · intro env self wm k v p hp hallow hok
    obtain ⟨st, hst⟩ := (exceptIsOk_iff _).mp hok
    have hr0 := hst
    unfold createUpdateStatement at hst
    obtain ⟨q1, hq1, hst⟩ := exceptBind_ok hst
    obtain ⟨q2, hq2, hst⟩ := exceptBind_ok hst
    have hcond : mutationPaginated env self 0 0 none = false := by
      simp [mutationPaginated, sortTruthy]
    rw [hcond] at hst
    simp only [Bool.false_eq_true, if_false] at hst
    obtain ⟨u, hu, hst⟩ := exceptBind_ok hst
    have hst' : st = Statement.plain u := by
      cases hst
      rfl
    -- Characterize q1 through addSetClause.
    have hset : setResult env self [(k, Value.vObj [("$inc", v)])]
        = .ok ([], [(p.columnName, v)], []) := by
      unfold setResult
      simp [List.foldlM, hinc env self k v p hp hallow, setKeyJs]
    rcases addSetClause_ok hq1 with ⟨hnone, _⟩ | ⟨m, r, hm, hr, hq⟩
    · cases hnone
    · cases hm
      rw [hset] at hr
      cases hr
      subst hq
      obtain ⟨rl, _, hq2e⟩ := addReturningClause_ok hq2
      subst hq2e
      obtain ⟨m2, cs, _, _, hue⟩ := addWhereClause_ok hu
      subst hue
      rw [hr0, hst']
      exact ⟨rfl, rfl, rfl⟩

/-- The alias rule as the specification words it: "the alias for the final
table is the underlying table name concatenated with each association name in
traversal order, joined by underscore". -/
def specChainAlias (rootTable : String) (names : List String) : String :=
  joinU (rootTable :: names)

theorem strExt {a b : String} (h : a.data = b.data) : a = b := by
  cases a
  cases b
  cases h
  rfl

theorem joinU_data_cons (x y : String) (rest : List String) :
    (joinU (x :: y :: rest)).data = x.data ++ '_' :: (joinU (y :: rest)).data := by
  show (x ++ "_" ++ joinU (y :: rest)).data = _
  show x.data ++ "_".data ++ (joinU (y :: rest)).data = _
  simp

theorem sepSplit_unique : ∀ (s1 s2 t1 t2 : List Char),
    (∀ c ∈ s1, c ≠ '_') → (∀ c ∈ s2, c ≠ '_') →
    s1 ++ '_' :: t1 = s2 ++ '_' :: t2 → s1 = s2 ∧ t1 = t2 := by
  intro s1
  induction s1 with
  | nil =>
    intro s2 t1 t2 _ h2 heq
    cases s2 with
    | nil => simpa using heq
    | cons c s2' =>
      simp only [List.nil_append, List.cons_append, List.cons.injEq] at heq
      exact absurd heq.1.symm (h2 c (by simp))
  | cons c s1' ih =>
    intro s2 t1 t2 h1 h2 heq
    cases s2 with
    | nil =>
      simp only [List.nil_append, List.cons_append, List.cons.injEq] at heq
      exact absurd heq.1 (h1 c (by simp))
    | cons d s2' =>
      simp only [List.cons_append, List.cons.injEq] at heq
      obtain ⟨rfl, heq'⟩ := heq
      obtain ⟨hs, ht⟩ := ih s2' t1 t2 (fun x hx => h1 x (by simp [hx]))
        (fun x hx => h2 x (by simp [hx])) heq'
      exact ⟨by rw [hs], ht⟩

theorem underscore_free_of_strContains {s : String}
    (h : strContains s '_' = false) : ∀ c ∈ s.data, c ≠ '_' := by
  intro c hc
  unfold strContains at h
  rw [List.any_eq_false] at h
  have := h c hc
  simpa using this

theorem joinU_inj : ∀ (n1 n2 : List String),
    (∀ s ∈ n1, s ≠ "" ∧ strContains s '_' = false) →
    (∀ s ∈ n2, s ≠ "" ∧ strContains s '_' = false) →
    joinU n1 = joinU n2 → n1 = n2 := by
  intro n1
  induction n1 with
  | nil =>
    intro n2 _ h2 heq
    cases n2 with
    | nil => rfl
    | cons y ys =>
      exfalso
      cases ys with
      | nil =>
        exact (h2 y (by simp)).1 ((show joinU [y] = y from rfl) ▸ heq.symm)
      | cons z zs =>
        have hd := congrArg String.data heq
        rw [joinU_data_cons] at hd
        have : ([] : List Char) = y.data ++ '_' :: (joinU (z :: zs)).data := hd
        exact absurd this.symm (by simp)
  | cons x xs ih =>
    intro n2 h1 h2 heq
    cases n2 with
    | nil =>
      exfalso
      cases xs with
      | nil =>
        exact (h1 x (by simp)).1 ((show joinU [x] = x from rfl) ▸ heq)
      | cons z zs =>
        have hd := congrArg String.data heq
        rw [joinU_data_cons] at hd
        have : x.data ++ '_' :: (joinU (z :: zs)).data = ([] : List Char) := hd
        exact absurd this (by simp)
    | cons y ys =>
      cases xs with
      | nil =>
        cases ys with
        | nil =>
          have : x = y := heq
          rw [this]
        | cons w ws =>
          exfalso
          have hd := congrArg String.data heq
          rw [show (joinU [x]).data = x.data from rfl, joinU_data_cons] at hd
          have hu := underscore_free_of_strContains (h1 x (by simp)).2
          exact hu '_' (by rw [hd]; simp) rfl
      | cons z zs =>
        cases ys with
        | nil =>
          exfalso
          have hd := congrArg String.data heq
          rw [show (joinU [y]).data = y.data from rfl, joinU_data_cons] at hd
          have hu := underscore_free_of_strContains (h2 y (by simp)).2
          exact hu '_' (by rw [← hd]; simp) rfl
        | cons w ws =>
          have hd := congrArg String.data heq
          rw [joinU_data_cons, joinU_data_cons] at hd
          obtain ⟨hxy, hrest⟩ := sepSplit_unique x.data y.data _ _
            (underscore_free_of_strContains (h1 x (by simp)).2)
            (underscore_free_of_strContains (h2 y (by simp)).2) hd
          have hx : x = y := strExt hxy
          have htail : (z :: zs) = (w :: ws) :=
            ih (w :: ws) (fun s hs => h1 s (by simp [hs]))
              (fun s hs => h2 s (by simp [hs])) (strExt hrest)
          rw [hx, htail]

theorem joinNonHasOne_shape {env : Env} {self : Mdl} {a : Prp} {rm : Mdl}
    {pal al : String} {jt : JoinType} {js : List Join}
    (h : joinEntries.joinNonHasOne env self a rm pal al jt = .ok js) :
    (strTruthy a.hasMany = true →
      ∃ fk, js = [Join.mk (rm.tableName ++ " as " ++ al) (pal ++ ".id") (al ++ "." ++ fk) jt])
    ∧ (strTruthy a.hasMany = false → a.belongsTo = true →
      js = [Join.mk (rm.tableName ++ " as " ++ al) (pal ++ "." ++ a.columnName) (al ++ ".id") jt]) := by
  unfold joinEntries.joinNonHasOne at h
  constructor
  · intro hm
    split at h
    · rename_i n heq
      split at h
      · split at h
        · cases h
        · cases h
          exact ⟨_, rfl⟩
      · rename_i hn
        exfalso
        rw [heq] at hm
        simp [strTruthy] at hm
        exact hn hm
    · rename_i heq
      exfalso
      rw [heq] at hm
      simp [strTruthy] at hm
  · intro hm hb
    split at h
    · rename_i n heq
      split at h
      · rename_i hn
        exfalso
        rw [heq] at hm
        simp [strTruthy] at hm
        exact hn hm
      · unfold joinEntries.joinBelongsToOrRest at h
        rw [if_pos hb] at h
        cases h
        rfl
    · unfold joinEntries.joinBelongsToOrRest at h
      rw [if_pos hb] at h
      cases h
      rfl

/-- C6 (amended): for every non-empty chain of associations the alias of the
final joined table follows the spec rule — the root table name concatenated
with each association name in traversal order, joined by underscores — and
the join's other side references the same rule applied to the chain without
its last element (the root table itself for a chain of length one); for a
many-to-many chain the through table is joined unaliased against the prefix
alias and the target table carries the chain alias.  Aliases of distinct
chains are distinct provided the association names are non-empty and contain
no underscore; without that proviso distinct chains can collide (see the
counterexample). -/
theorem c6_chain_aliases :
    (∀ (self : Mdl) (names : List String), names ≠ [] →
      chainAlias self names = specChainAlias self.tableName names)
    ∧ (∀ (self : Mdl) (names : List String),
      chainPreviousAlias self names = specChainAlias self.tableName names.dropLast)
    ∧ (∀ (env : Env) (self : Mdl) (chain : List Prp) (a : Prp) (js : List Join),
      joinEntries env self chain = .ok js → chain.getLast? = some a →
      a.isManyToMany = false → strTruthy a.hasOne = false → strTruthy a.hasMany = true →
      ∃ refTable fk,
        js = [Join.mk (refTable ++ " as " ++ chainAlias self (chain.map Prp.name))
          (chainPreviousAlias self (chain.map Prp.name) ++ ".id")
          (chainAlias self (chain.map Prp.name) ++ "." ++ fk)
          (if a.required then JoinType.inner else JoinType.leftOuter)])
    ∧ (∀ (env : Env) (self : Mdl) (chain : List Prp) (a : Prp) (js : List Join),
      joinEntries env self chain = .ok js → chain.getLast? = some a →
      a.isManyToMany = false → strTruthy a.hasOne = false → strTruthy a.hasMany = false →
      a.belongsTo = true →
      ∃ refTable,
        js = [Join.mk (refTable ++ " as " ++ chainAlias self (chain.map Prp.name))
          (chainPreviousAlias self (chain.map Prp.name) ++ "." ++ a.columnName)
          (chainAlias self (chain.map Prp.name) ++ ".id")
          (if a.required then JoinType.inner else JoinType.leftOuter)])
    ∧ (∀ (env : Env) (self : Mdl) (chain : List Prp) (a : Prp) (js : List Join),
      joinEntries env self chain = .ok js → chain.getLast? = some a →
      a.isManyToMany = true →
      ∃ throughTable targetTable r1 r2,
        js = [Join.mk throughTable (throughTable ++ "." ++ r1)
            (chainPreviousAlias self (chain.map Prp.name) ++ ".id") JoinType.leftOuter,
          Join.mk (targetTable ++ " as " ++ chainAlias self (chain.map Prp.name))
            (throughTable ++ "." ++ r2)
            (chainAlias self (chain.map Prp.name) ++ ".id") JoinType.leftOuter])
    ∧ (∀ (root : String) (n1 n2 : List String),
      (∀ s ∈ n1, s ≠ "" ∧ strContains s '_' = false) →
      (∀ s ∈ n2, s ≠ "" ∧ strContains s '_' = false) →
      specChainAlias root n1 = specChainAlias root n2 → n1 = n2) := by
  refine ⟨?_, ?_, ?_, ?_, ?_, ?_⟩
  · intro self names hne
    cases names with
    | nil => exact absurd rfl hne
    | cons y rest => rfl
  · intro self names
    rfl
  · intro env self chain a js h hlast hm2m h1 hm
    unfold joinEntries at h
    rw [hlast] at h
    simp only [hm2m, Bool.false_eq_true, if_false] at h
    split at h
    · cases h
    · split at h
      · rename_i hasOneName heq
        have : hasOneName = "" := by
          rw [heq] at h1
          simpa [strTruthy] using h1
        rw [this] at h
        simp only [ne_eq, not_true_eq_false, if_false, reduceIte] at h
        obtain ⟨hshape, _⟩ := joinNonHasOne_shape h
        obtain ⟨fk, hjs⟩ := hshape hm
        exact ⟨_, fk, hjs⟩
      · obtain ⟨hshape, _⟩ := joinNonHasOne_shape h
        obtain ⟨fk, hjs⟩ := hshape hm
        exact ⟨_, fk, hjs⟩
  · intro env self chain a js h hlast hm2m h1 hm hb
    unfold joinEntries at h
    rw [hlast] at h
    simp only [hm2m, Bool.false_eq_true, if_false] at h
    split at h
    · cases h
    · split at h
      · rename_i hasOneName heq
        have : hasOneName = "" := by
          rw [heq] at h1
          simpa [strTruthy] using h1
        rw [this] at h
        simp only [ne_eq, not_true_eq_false, if_false, reduceIte] at h
        obtain ⟨_, hshape⟩ := joinNonHasOne_shape h
        exact ⟨_, hshape hm hb⟩
      · obtain ⟨_, hshape⟩ := joinNonHasOne_shape h
        exact ⟨_, hshape hm hb⟩
  · intro env self chain a js h hlast hm2m
    unfold joinEntries at h
    rw [hlast] at h
    simp only [hm2m, if_true] at h
    split at h
    · cases h
    · split at h
      · cases h
      · split at h
        · split at h
          · cases h
          · cases h
        · split at h
          · cases h
          · rename_i associatedTable _ r1 _ _ r2 _ am _
            cases h
            exact ⟨_, _, _, _, rfl⟩
  · intro root n1 n2 h1 h2 heq
    unfold specChainAlias at heq
    cases n1 with
    | nil =>
      cases n2 with
      | nil => rfl
      | cons y ys =>
        exfalso
        have hd := congrArg String.data heq
        rw [joinU_data_cons] at hd
        have hd' : root.data = root.data ++ '_' :: (joinU (y :: ys)).data := hd
        have hlen := congrArg List.length hd'
        simp only [List.length_append, List.length_cons] at hlen
        omega
    | cons x xs =>
      cases n2 with
      | nil =>
        exfalso
        have hd := congrArg String.data heq
        rw [joinU_data_cons] at hd
        have hd' : root.data ++ '_' :: (joinU (x :: xs)).data = root.data := hd
        have hlen := congrArg List.length hd'
        simp only [List.length_append, List.length_cons] at hlen
        omega
      | cons y ys =>
        have hd := congrArg String.data heq
        rw [joinU_data_cons, joinU_data_cons] at hd
        have hbody := List.append_cancel_left hd
        simp only [List.cons.injEq, true_and] at hbody
        exact joinU_inj (x :: xs) (y :: ys) h1 h2 (strExt hbody)

/-- C6 counterexample: the chains `[a_b]` and `[a, b]` from the `Root`
fixture are distinct, yet both joins are aliased `roots_a_b`. -/
theorem c6_counterexample_alias_collision :
    [rootAB].map Prp.name ≠ [rootA, yB].map Prp.name
    ∧ (joinEntries envR rootModel [rootAB]).map (fun js => js.map Join.tableExpr)
        = .ok ["xs as roots_a_b"]
    ∧ (joinEntries envR rootModel [rootA, yB]).map (fun js => js.map Join.tableExpr)
        = .ok ["xs as roots_a_b"] :=
  ⟨by decide, rfl, rfl⟩

/-- C6 witness: the alias rule at a concrete two-step chain. -/
theorem c6_witness :
    chainAlias rootModel ["a", "b"] = specChainAlias "roots" ["a", "b"] :=
  c6_chain_aliases.1 rootModel ["a", "b"] (by decide)

/-- C8 witness: the statement-level increment clause at a concrete input —
`update({id: 5}, {id: {$inc: 1}})` on the `Shop` fixture. -/
theorem c8_witness :
    isPlainOk (createUpdateStatement envB shopModel (some [("id", Value.vInt 5)])
        (some [("id", Value.vObj [("$inc", Value.vInt 1)])]) 0 0 none) = true
    ∧ (mainQ (createUpdateStatement envB shopModel (some [("id", Value.vInt 5)])
        (some [("id", Value.vObj [("$inc", Value.vInt 1)])]) 0 0 none)).map Query.increments
      = some [("id", Value.vInt 1)]
    ∧ (mainQ (createUpdateStatement envB shopModel (some [("id", Value.vInt 5)])
        (some [("id", Value.vObj [("$inc", Value.vInt 1)])]) 0 0 none)).map Query.updateMap
      = some [] :=
  c8_set_directives.2.2 envB shopModel (some [("id", Value.vInt 5)]) "id" (Value.vInt 1)
    { name := "id", columnName := "id", modelName := "Shop" } rfl rfl (by rfl)

/-- C1: whenever a truthy limit or offset is requested, the statement built by
`createSelectStatement` is a common-table-expression whose inner query carries
the base table, the WHERE filter, the effective sort and the limit and offset,
with an empty join list whenever the where map names no non-fetched
association, and whose outer query runs against the base table without limit
or offset; when neither is requested the statement is a single plain select
with the WHERE filter and sort applied directly. -/
theorem c1_cte_structure {env : Env} {self : Mdl}
    {wm : Option (List (String × Value))} {limit skip : Nat}
    {sort : Option SortSpec} {group : Option GroupArg}
    {sel fetch : Option (List String)} {depth : Nat} {st : Statement}
    (h : createSelectStatement env self wm limit skip sort group sel fetch depth = .ok st) :
    ∃ wcs scs,
      whereConds env self wm = .ok wcs ∧
      sortConds env self (effectiveSort env self sort group) = .ok scs ∧
      (usingCTECond limit skip = false →
        ∃ q, st = .plain q ∧ q.fromTable = self.tableName ∧ q.orderBys = scs ∧
          q.wheres = wcs ∧ q.limit = none ∧ q.offset = none) ∧
      (usingCTECond limit skip = true →
        ∃ w q, st = .cte self.tableName w q ∧
          w.fromTable = self.tableName ∧ w.wheres = wcs ∧ w.orderBys = scs ∧
          w.limit = (if 0 < limit then some limit else none) ∧
          w.offset = (if 0 < skip then some skip else none) ∧
          (whereNamesAssoc env self fetch wm = false → w.joins = []) ∧
          q.fromTable = self.tableName ∧ q.orderBys = scs ∧
          q.limit = none ∧ q.offset = none) :=
  createSelectStatement_inv h

/-- C1 witness: `find({}, limit=1)` on the `Shop` fixture produces the CTE
shape concretely. -/
theorem c1_witness :
    ∃ st, createSelectStatement envB shopModel (some []) 1 0 none none none none 3
        = .ok st ∧
      ∃ wcs scs,
        whereConds envB shopModel (some []) = .ok wcs ∧
        sortConds envB shopModel (effectiveSort envB shopModel none none) = .ok scs ∧
        (usingCTECond 1 0 = false →
          ∃ q, st = .plain q ∧ q.fromTable = shopModel.tableName ∧ q.orderBys = scs ∧
            q.wheres = wcs ∧ q.limit = none ∧ q.offset = none) ∧
        (usingCTECond 1 0 = true →
          ∃ w q, st = .cte shopModel.tableName w q ∧
            w.fromTable = shopModel.tableName ∧ w.wheres = wcs ∧ w.orderBys = scs ∧
            w.limit = (if 0 < (1:Nat) then some 1 else none) ∧
            w.offset = (if 0 < (0:Nat) then some 0 else none) ∧
            (whereNamesAssoc envB shopModel none (some []) = false → w.joins = []) ∧
            q.fromTable = shopModel.tableName ∧ q.orderBys = scs ∧
            q.limit = none ∧ q.offset = none) :=
  ⟨_, rfl, @c1_cte_structure envB shopModel (some []) 1 0 none none none none 3 _ rfl⟩

/-- C1 counterexample: with `find({c: 1}, limit=1)` on the `Shop` fixture —
the where map naming the non-fetched association `c` — the inner CTE query is
not against the base table only: it joins `items as shops_c`. -/
theorem c1_counterexample_inner_join :
    usingCTECond 1 0 = true ∧
    (innerQ (createSelectStatement envB shopModel (some [("c", Value.vInt 1)]) 1 0
        none none none none 3)).map (fun w => w.joins.map Join.tableExpr)
      = some ["items as shops_c"] :=
  ⟨rfl, by rfl⟩

/-- C4: the main query built by `createSelectStatement` is ordered by the
sort conditions of the effective sort, and the implicit ascending sort by
`id` is substituted for a falsy sort argument exactly when the model
declares at least one association (whether or not any association is joined
into the statement), the model has an `id` property and no group is given;
otherwise the caller-supplied sort is used unchanged. -/
theorem c4_implicit_sort {env : Env} {self : Mdl}
    {wm : Option (List (String × Value))} {limit skip : Nat}
    {sort : Option SortSpec} {group : Option GroupArg}
    {sel fetch : Option (List String)} {depth : Nat} {st : Statement}
    (h : createSelectStatement env self wm limit skip sort group sel fetch depth = .ok st) :
    ∃ q scs, mainQ (.ok st) = some q ∧
      sortConds env self (effectiveSort env self sort group) = .ok scs ∧
      q.orderBys = scs ∧
      implicitSortCond env self sort group
        = (!self.getAssociationProps.isEmpty && !sortTruthy sort &&
            (getPropertyJs env self "id").isSome && !groupTruthy group) ∧
      (implicitSortCond env self sort group = true →
        effectiveSort env self sort group = some (SortSpec.map [("id", SortVal.s "asc")])) ∧
      (implicitSortCond env self sort group = false →
        effectiveSort env self sort group = sort) := by
  obtain ⟨wcs, scs, hw, hs, hplain, hcte⟩ := createSelectStatement_inv h
  cases hu : usingCTECond limit skip with
  | false =>
    obtain ⟨q, hst, hfrom, hord, -, -, -⟩ := hplain hu
    subst hst
    refine ⟨q, scs, rfl, hs, hord, rfl, ?_, ?_⟩
    · intro hc
      simp [effectiveSort, hc]
    · intro hc
      simp [effectiveSort, hc]
  | true =>
    obtain ⟨w, q, hst, -, -, -, -, -, -, -, hord, -, -⟩ := hcte hu
    subst hst
    refine ⟨q, scs, rfl, hs, hord, rfl, ?_, ?_⟩
    · intro hc
      simp [effectiveSort, hc]
    · intro hc
      simp [effectiveSort, hc]

/-- C4 witness: `find({})` on the `Shop` fixture — the implicit-sort rule at
a concrete input. -/
theorem c4_witness :
    ∃ st, createSelectStatement envB shopModel (some []) 0 0 none none none none 3
        = .ok st ∧
      ∃ q scs, mainQ (.ok st) = some q ∧
        sortConds envB shopModel (effectiveSort envB shopModel none none) = .ok scs ∧
        q.orderBys = scs ∧
        implicitSortCond envB shopModel none none
          = (!shopModel.getAssociationProps.isEmpty && !sortTruthy none &&
              (getPropertyJs envB shopModel "id").isSome && !groupTruthy none) ∧
        (implicitSortCond envB shopModel none none = true →
          effectiveSort envB shopModel none none
            = some (SortSpec.map [("id", SortVal.s "asc")])) ∧
        (implicitSortCond envB shopModel none none = false →
          effectiveSort envB shopModel none none = none) :=
  ⟨_, rfl, @c4_implicit_sort envB shopModel (some []) 0 0 none none none none 3 _ rfl⟩

/-- C4 counterexample: `find({})` on the `Shop` fixture joins no association
into the statement — the produced plain query has an empty join list — yet
the implicit ascending sort by id is added, because `Shop` merely declares
the never-joined association `c`. -/
theorem c4_counterexample_unjoined_sort :
    (mainQ (createSelectStatement envB shopModel (some []) 0 0 none none none none 3)).map
        (fun q => (q.joins, q.orderBys))
      = some ([], [("shops.id", "ASC")]) := by
  rfl

/-- C3: when any of limit, skip or sort is truthy and the model has an `id`
property, `createDeleteStatement` and `createUpdateStatement` build a
common-table-expression named `t` whose inner query applies the where, sort,
limit and offset against the base table and whose outer mutation targets
`"id" in (select "id" from "t")`; otherwise the where clause is applied
directly to the mutation; in both cases the mutation carries the RETURNING
list `*` followed by the computed (sqlish) non-aggregate columns. -/
theorem c3_mutation_statements :
    (∀ (env : Env) (self : Mdl) (wm : Option (List (String × Value)))
        (limit skip : Nat) (sort : Option SortSpec) (st : Statement),
      createDeleteStatement env self wm limit skip sort = .ok st →
      ∃ rl wcs rest,
        returningList env self = .ok rl ∧ rl = "*" :: rest ∧
        whereCondsJs env self wm = .ok wcs ∧
        (mutationPaginated env self limit skip sort = true →
          ∃ scs w d, sortConds env self sort = .ok scs ∧ st = .cte "t" w d ∧
            w.fromTable = self.tableName ∧ w.wheres = wcs ∧ w.orderBys = scs ∧
            w.limit = (if 0 < limit then some limit else none) ∧
            w.offset = (if 0 < skip then some skip else none) ∧
            d.fromTable = self.tableName ∧ d.isDelete = true ∧
            d.wheres = [Wc.wRaw "\"id\" in (select \"id\" from \"t\")" []] ∧
            d.returning = rl) ∧
        (mutationPaginated env self limit skip sort = false →
          ∃ d, st = .plain d ∧ d.fromTable = self.tableName ∧ d.isDelete = true ∧
            d.wheres = wcs ∧ d.returning = rl))
    ∧ (∀ (env : Env) (self : Mdl) (wm sm : Option (List (String × Value)))
        (limit skip : Nat) (sort : Option SortSpec) (st : Statement),
      createUpdateStatement env self wm sm limit skip sort = .ok st →
      ∃ rl wcs rest,
        returningList env self = .ok rl ∧ rl = "*" :: rest ∧
        whereCondsJs env self wm = .ok wcs ∧
        (mutationPaginated env self limit skip sort = true →
          ∃ scs w u, sortConds env self sort = .ok scs ∧ st = .cte "t" w u ∧
            w.fromTable = self.tableName ∧ w.wheres = wcs ∧ w.orderBys = scs ∧
            w.limit = (if 0 < limit then some limit else none) ∧
            w.offset = (if 0 < skip then some skip else none) ∧
            u.fromTable = self.tableName ∧ u.isDelete = false ∧
            u.wheres = [Wc.wRaw "\"id\" in (select \"id\" from \"t\")" []] ∧
            u.returning = rl) ∧
        (mutationPaginated env self limit skip sort = false →
          ∃ u, st = .plain u ∧ u.fromTable = self.tableName ∧ u.isDelete = false ∧
            u.wheres = wcs ∧ u.returning = rl)) := by
  constructor
  · intro env self wm limit skip sort st h
    unfold createDeleteStatement at h
    obtain ⟨d1, hd1, h⟩ := exceptBind_ok h
    obtain ⟨rl, hrl, hd1e⟩ := addReturningClause_ok hd1
    have hrlshape : ∃ rest, rl = "*" :: rest := by
      unfold returningList at hrl
      obtain ⟨rest, hrest, hpure⟩ := exceptBind_ok hrl
      cases hpure
      exact ⟨rest, rfl⟩
    obtain ⟨rest, hrle⟩ := hrlshape
    cases hmp : mutationPaginated env self limit skip sort with
    | true =>
      rw [hmp] at h
      simp only [if_true] at h
      obtain ⟨w1, hw1, h⟩ := exceptBind_ok h
      obtain ⟨w2, hw2, h⟩ := exceptBind_ok h
      obtain ⟨m, wcs, hm, hwcs, hw1e⟩ := addWhereClause_ok hw1
      obtain ⟨scs, hscs, hw2e⟩ := addSortClause_ok hw2
      have hste : st = .cte "t" (addOffsetClause (addLimitClause w2 limit) skip)
          { d1 with wheres := d1.wheres
              ++ [Wc.wRaw "\"id\" in (select \"id\" from \"t\")" []] } := by
        cases h
        rfl
      refine ⟨rl, wcs, rest, hrl, hrle, ?_, ?_, ?_⟩
      · simp [whereCondsJs, hm, hwcs]
      · intro _
        refine ⟨scs, _, _, hscs, hste, ?_, ?_, ?_, ?_, ?_, ?_, ?_, ?_, ?_⟩
        · by_cases hl : 0 < limit <;> by_cases hs : 0 < skip <;>
            simp [addLimitClause, addOffsetClause, hl, hs, hw2e, hw1e]
        · by_cases hl : 0 < limit <;> by_cases hs : 0 < skip <;>
            simp [addLimitClause, addOffsetClause, hl, hs, hw2e, hw1e]
        · by_cases hl : 0 < limit <;> by_cases hs : 0 < skip <;>
            simp [addLimitClause, addOffsetClause, hl, hs, hw2e, hw1e]
        · by_cases hl : 0 < limit <;> by_cases hs : 0 < skip <;>
            simp [addLimitClause, addOffsetClause, hl, hs, hw2e, hw1e]
        · by_cases hl : 0 < limit <;> by_cases hs : 0 < skip <;>
            simp [addLimitClause, addOffsetClause, hl, hs, hw2e, hw1e]
        · simp [hd1e]
        · simp [hd1e]
        · simp [hd1e]
        · simp [hd1e]
      · intro hc
        exact absurd hc (by simp)
    | false =>
      rw [hmp] at h
      simp only [Bool.false_eq_true, if_false] at h
      obtain ⟨d, hd, h⟩ := exceptBind_ok h
      obtain ⟨m, wcs, hm, hwcs, hde⟩ := addWhereClause_ok hd
      have hste : st = .plain d := by
        cases h
        rfl
      refine ⟨rl, wcs, rest, hrl, hrle, ?_, ?_, ?_⟩
      · simp [whereCondsJs, hm, hwcs]
      · intro hc
        exact absurd hc (by simp)
      · intro _
        exact ⟨d, hste, by simp [hde, hd1e], by simp [hde, hd1e],
          by simp [hde, hd1e], by simp [hde, hd1e]⟩
  · intro env self wm sm limit skip sort st h
    unfold createUpdateStatement at h
    obtain ⟨q1, hq1, h⟩ := exceptBind_ok h
    obtain ⟨q2, hq2, h⟩ := exceptBind_ok h
    obtain ⟨rl, hrl, hq2e⟩ := addReturningClause_ok hq2
    have hrlshape : ∃ rest, rl = "*" :: rest := by
      unfold returningList at hrl
      obtain ⟨rest, hrest, hpure⟩ := exceptBind_ok hrl
      cases hpure
      exact ⟨rest, rfl⟩
    obtain ⟨rest, hrle⟩ := hrlshape
    have hq1w : q1.wheres = [] ∧ q1.fromTable = self.tableName ∧ q1.isDelete = false := by
      rcases addSetClause_ok hq1 with ⟨-, hq⟩ | ⟨m, r, -, -, hq⟩ <;>
        subst hq <;> exact ⟨rfl, rfl, rfl⟩
    cases hmp : mutationPaginated env self limit skip sort with
    | true =>
      rw [hmp] at h
      simp only [if_true] at h
      obtain ⟨w1, hw1, h⟩ := exceptBind_ok h
      obtain ⟨w4, hw4, h⟩ := exceptBind_ok h
      obtain ⟨scs, hscs, hw1e⟩ := addSortClause_ok hw1
      obtain ⟨m, wcs, hm, hwcs, hw4e⟩ := addWhereClause_ok hw4
      have hste : st = .cte "t" w4
          { q2 with wheres := q2.wheres
              ++ [Wc.wRaw "\"id\" in (select \"id\" from \"t\")" []] } := by
        cases h
        rfl
      refine ⟨rl, wcs, rest, hrl, hrle, ?_, ?_, ?_⟩
      · simp [whereCondsJs, hm, hwcs]
      · intro _
        refine ⟨scs, _, _, hscs, hste, ?_, ?_, ?_, ?_, ?_, ?_, ?_, ?_, ?_⟩
        · by_cases hl : 0 < limit <;> by_cases hs : 0 < skip <;>
            simp [addLimitClause, addOffsetClause, hl, hs, hw4e, hw1e]
        · by_cases hl : 0 < limit <;> by_cases hs : 0 < skip <;>
            simp [addLimitClause, addOffsetClause, hl, hs, hw4e, hw1e]
        · by_cases hl : 0 < limit <;> by_cases hs : 0 < skip <;>
            simp [addLimitClause, addOffsetClause, hl, hs, hw4e, hw1e]
        · by_cases hl : 0 < limit <;> by_cases hs : 0 < skip <;>
            simp [addLimitClause, addOffsetClause, hl, hs, hw4e, hw1e]
        · by_cases hl : 0 < limit <;> by_cases hs : 0 < skip <;>
            simp [addLimitClause, addOffsetClause, hl, hs, hw4e, hw1e]
        · simp [hq2e, hq1w.2.1]
        · simp [hq2e, hq1w.2.2]
        · simp [hq2e, hq1w.1]
        · simp [hq2e]
      · intro hc
        exact absurd hc (by simp)
    | false =>
      rw [hmp] at h
      simp only [Bool.false_eq_true, if_false] at h
      obtain ⟨u, hu, h⟩ := exceptBind_ok h
      obtain ⟨m, wcs, hm, hwcs, hue⟩ := addWhereClause_ok hu
      have hste : st = .plain u := by
        cases h
        rfl
      refine ⟨rl, wcs, rest, hrl, hrle, ?_, ?_, ?_⟩
      · simp [whereCondsJs, hm, hwcs]
      · intro hc
        exact absurd hc (by simp)
      · intro _
        exact ⟨u, hste, by simp [hue, hq2e, hq1w.2.1], by simp [hue, hq2e, hq1w.2.2],
          by simp [hue, hq2e, hq1w.1], by simp [hue, hq2e]⟩

/-- C3 witness: the spec scenario `remove(where, limit=10, skip=0,
sort={id: 'asc'})` on the `Shop` fixture — a CTE-bounded delete. -/
theorem c3_witness :
    ∃ st, createDeleteStatement envB shopModel (some [("id", Value.vInt 5)]) 10 0
        (some (SortSpec.map [("id", SortVal.s "asc")])) = .ok st ∧
      ∃ rl wcs rest,
        returningList envB shopModel = .ok rl ∧ rl = "*" :: rest ∧
        whereCondsJs envB shopModel (some [("id", Value.vInt 5)]) = .ok wcs ∧
        (mutationPaginated envB shopModel 10 0
            (some (SortSpec.map [("id", SortVal.s "asc")])) = true →
          ∃ scs w d, sortConds envB shopModel
              (some (SortSpec.map [("id", SortVal.s "asc")])) = .ok scs ∧
            st = .cte "t" w d ∧
            w.fromTable = shopModel.tableName ∧ w.wheres = wcs ∧ w.orderBys = scs ∧
            w.limit = (if 0 < (10:Nat) then some 10 else none) ∧
            w.offset = (if 0 < (0:Nat) then some 0 else none) ∧
            d.fromTable = shopModel.tableName ∧ d.isDelete = true ∧
            d.wheres = [Wc.wRaw "\"id\" in (select \"id\" from \"t\")" []] ∧
            d.returning = rl) ∧
        (mutationPaginated envB shopModel 10 0
            (some (SortSpec.map [("id", SortVal.s "asc")])) = false →
          ∃ d, st = .plain d ∧ d.fromTable = shopModel.tableName ∧ d.isDelete = true ∧
            d.wheres = wcs ∧ d.returning = rl) :=
  ⟨_, rfl, c3_mutation_statements.1 envB shopModel (some [("id", Value.vInt 5)]) 10 0
    (some (SortSpec.map [("id", SortVal.s "asc")])) _ rfl⟩

/-- Appending after a list leaves it as a prefix. -/
theorem strStartsWith_self_append (p r : List Char) : strStartsWith p (p ++ r) = true := by
  induction p with
  | nil => rfl
  | cons c cs ih => simp [strStartsWith, ih]

/-- A sublist placed anywhere inside a character list is found by the
substring scan. -/
theorem containsSubAux_middle (sub a b : List Char) :
    containsSubAux sub (a ++ (sub ++ b)) = true := by
  induction a with
  | nil =>
    cases sub with
    | nil =>
      cases b with
      | nil => rfl
      | cons c cs => simp [containsSubAux, strStartsWith]
    | cons c cs =>
      have hs := strStartsWith_self_append (c :: cs) b
      simp only [List.cons_append] at hs
      simp [containsSubAux, hs]
  | cons x xs ih =>
    simp [containsSubAux, ih]

/-- String-level corollary: if the data of `s` decomposes around `sub.data`,
then `sub` occurs in `s`. -/
theorem containsSub_of_parts (s sub : String) (a b : List Char)
    (h : s.data = a ++ (sub.data ++ b)) : containsSub s sub = true := by
  unfold containsSub
  rw [h]
  exact containsSubAux_middle sub.data a b

/-- A monadic fold over `Except` fails whenever some element's step fails for
every accumulator. -/
theorem foldlM_fails {α β : Type} {f : β → α → Except JsErr β} {l : List α} {x : α}
    (hx : x ∈ l) (hf : ∀ acc, (f acc x).isOk = false) :
    ∀ acc, (l.foldlM f acc).isOk = false := by
  induction l with
  | nil => cases hx
  | cons a rest ih =>
    intro acc
    rw [List.foldlM_cons]
    rcases List.mem_cons.mp hx with h1 | h2
    · subst h1
      cases hfa : f acc x with
      | ok b =>
        have hc := hf acc
        rw [hfa] at hc
        cases hc
      | error e =>
        rfl
    · cases hfa : f acc a with
      | ok b =>
        exact ih h2 b
      | error e =>
        rfl

/-- C2: an unknown property name in a where map (outside `$or`), a set map, a
sort map or a group list makes construction fail synchronously with an
explicit error; the non-`$or` where error and the set error name the
offending property and the table; the sort error names the property (though
not the table); inside a `$or` branch the failure names the literal key
`$or` instead of the offending property; and the statement builder as a
whole fails for a where map containing an unknown key. -/
theorem c2_unknown_property :
    (∀ (env : Env) (self : Mdl) (wm : List (String × Value)) (k : String) (v : Value),
      (k, v) ∈ wm → k ≠ "$or" → getPropertyJs env self k = none →
      (whereEntries env self wm).isOk = false)
    ∧ (∀ (env : Env) (self : Mdl) (k : String) (v : Value),
      k ≠ "$or" → getPropertyJs env self k = none →
      whereEntries env self [(k, v)] = .error (.err (whereUnknownMsg self k))
        ∧ containsSub (whereUnknownMsg self k) k = true
        ∧ containsSub (whereUnknownMsg self k) self.tableName = true)
    ∧ (∀ (env : Env) (self : Mdl) (k : String) (v : Value),
      getPropertyJs env self k = none →
      whereEntries env self [("$or", .vArr [.vObj [(k, v)]])]
        = .error (.err (whereOrUnknownMsg self)))
    ∧ (∀ (env : Env) (self : Mdl) (sm : List (String × Value)) (k : String) (v : Value),
      (k, v) ∈ sm → getPropertyJs env self k = none →
      (setResult env self sm).isOk = false)
    ∧ (∀ (env : Env) (self : Mdl) (k : String) (v : Value),
      getPropertyJs env self k = none →
      setEntry env self k v
        = .error (.err ("Could not find property `" ++ k ++ "` in `"
            ++ self.tableName ++ "`.")))
    ∧ (∀ (env : Env) (self : Mdl) (entries : List (String × SortVal)) (k : String)
        (v : SortVal),
      (k, v) ∈ entries → getPropertyJs env self k = none →
      (sortEntriesCore env self (.map entries)).isOk = false)
    ∧ (∀ (env : Env) (self : Mdl) (k : String) (v : SortVal),
      getPropertyJs env self k = none →
      sortEntryFor env self k v
        = .error (.err ("Warning: cannot find property `" ++ k ++ "` in orderBy.")))
    ∧ (∀ (env : Env) (self : Mdl) (g : Option GroupArg) (names : List String) (k : String),
      k ∈ names → getPropertyJs env self k = none →
      (groupColumnsOf env self g names).isOk = false)
    ∧ (∀ (env : Env) (self : Mdl) (wm : List (String × Value)) (k : String) (v : Value)
        (limit skip : Nat) (sort : Option SortSpec) (group : Option GroupArg)
        (sel fetch : Option (List String)) (depth : Nat),
      (k, v) ∈ wm → k ≠ "$or" → getPropertyJs env self k = none →
      (createSelectStatement env self (some wm) limit skip sort group sel fetch depth).isOk
        = false) := by
  have hwent : ∀ (env : Env) (self : Mdl) (msg k : String) (v : Value),
      getPropertyJs env self k = none →
      whereEntryWith env self msg k v = .error (.err msg) := by
    intro env self msg k v hk
    unfold whereEntryWith
    rw [hk]
  have ha : ∀ (env : Env) (self : Mdl) (wm : List (String × Value)) (k : String) (v : Value),
      (k, v) ∈ wm → k ≠ "$or" → getPropertyJs env self k = none →
      (whereEntries env self wm).isOk = false := by
    intro env self wm k v hmem hkor hk
    unfold whereEntries
    refine foldlM_fails hmem ?_ []
    intro acc
    simp only []
    rw [if_neg hkor]
    rw [hwent env self (whereUnknownMsg self k) k v hk]
    rfl
  refine ⟨ha, ?_, ?_, ?_, ?_, ?_, ?_, ?_, ?_⟩
  · intro env self k v hkor hk
    refine ⟨?_, ?_, ?_⟩
    · unfold whereEntries
      rw [List.foldlM_cons]
      simp only []
      rw [if_neg hkor]
      rw [hwent env self (whereUnknownMsg self k) k v hk]
      rfl
    · refine containsSub_of_parts _ _ ("Cannot find property with name `").data
        (("` on table `" ++ self.tableName
          ++ "`. Did you specify an invalid property name in where clause?").data) ?_
      show (whereUnknownMsg self k).data = _
      simp [whereUnknownMsg]
    · refine containsSub_of_parts _ _
        (("Cannot find property with name `" ++ k ++ "` on table `").data)
        (("`. Did you specify an invalid property name in where clause?").data) ?_
      show (whereUnknownMsg self k).data = _
      simp [whereUnknownMsg]
  · intro env self k v hk
    have hg : whereOrGroups env self (.vArr [.vObj [(k, v)]])
        = .error (.err (whereOrUnknownMsg self)) := by
      simp [whereOrGroups, List.mapM, List.mapM.loop, jsOwnFields, List.foldlM,
        Bind.bind, Except.bind, Functor.map, Except.map,
        hwent env self (whereOrUnknownMsg self) k v hk]
    unfold whereEntries
    rw [List.foldlM_cons]
    simp only [if_pos rfl]
    rw [hg]
    rfl
  · intro env self sm k v hmem hk
    unfold setResult
    refine foldlM_fails hmem ?_ ([], [], [])
    intro acc
    simp only []
    rw [show setEntry env self (k, v).1 (k, v).2
        = .error (.err ("Could not find property `" ++ k ++ "` in `"
            ++ self.tableName ++ "`.")) from by unfold setEntry; rw [hk]]
    rfl
  · intro env self k v hk
    unfold setEntry
    rw [hk]
  · intro env self entries k v hmem hk
    unfold sortEntriesCore
    refine foldlM_fails hmem ?_ []
    intro acc
    simp only []
    rw [show sortEntryFor env self (k, v).1 (k, v).2
        = .error (.err ("Warning: cannot find property `" ++ k ++ "` in orderBy."))
        from by unfold sortEntryFor; rw [hk]]
    rfl
  · intro env self k v hk
    unfold sortEntryFor
    rw [hk]
  · intro env self g names k hmem hk
    unfold groupColumnsOf
    refine foldlM_fails hmem ?_ []
    intro acc
    rw [hk]
    rfl
  · intro env self wm k v limit skip sort group sel fetch depth hmem hkor hk
    cases hok : (createSelectStatement env self (some wm) limit skip sort group sel
        fetch depth).isOk with
    | false => rfl
    | true =>
      exfalso
      obtain ⟨st, hst⟩ := (exceptIsOk_iff _).mp hok
      obtain ⟨wcs, scs, hw, -, -, -⟩ := createSelectStatement_inv hst
      have hfail := ha env self wm k v hmem hkor hk
      have hw2 : whereEntries env self wm = .ok wcs := hw
      rw [hw2] at hfail
      cases hfail

/-- C2 witness: the unknown property `bad` on the `Shop` fixture — the where
and set failures name it and the table, and the whole select build fails. -/
theorem c2_witness :
    whereEntries envB shopModel [("bad", Value.vInt 1)]
      = .error (.err (whereUnknownMsg shopModel "bad"))
    ∧ containsSub (whereUnknownMsg shopModel "bad") "bad" = true
    ∧ containsSub (whereUnknownMsg shopModel "bad") shopModel.tableName = true
    ∧ setEntry envB shopModel "bad" (Value.vInt 1)
      = .error (.err ("Could not find property `" ++ "bad" ++ "` in `"
          ++ shopModel.tableName ++ "`."))
    ∧ (createSelectStatement envB shopModel (some [("bad", Value.vInt 1)]) 0 0
        none none none none 3).isOk = false := by
  obtain ⟨h1, h2, h3⟩ := c2_unknown_property.2.1 envB shopModel "bad" (Value.vInt 1)
    (by decide) rfl
  exact ⟨h1, h2, h3,
    c2_unknown_property.2.2.2.2.1 envB shopModel "bad" (Value.vInt 1) rfl,
    c2_unknown_property.2.2.2.2.2.2.2.2 envB shopModel [("bad", Value.vInt 1)] "bad"
      (Value.vInt 1) 0 0 none none none none 3 (List.Mem.head _) (by decide) rfl⟩

/-- C2 counterexample: an unknown property inside a `$or` branch fails with a
message naming the literal key `$or`; the offending property name `bad`
appears nowhere in the message. -/
theorem c2_counterexample_or_message :
    whereEntries envB shopModel
        [("$or", Value.vArr [Value.vObj [("bad", Value.vInt 1)]])]
      = .error (.err (whereOrUnknownMsg shopModel))
    ∧ containsSub (whereOrUnknownMsg shopModel) "bad" = false := by
  exact ⟨rfl, rfl⟩

end Fire
